import Mathlib

/-!
Verification development for the AI orchestration core of the Lolo IRC bot
(Python sources under `api/`).  Python functions are shallowly embedded as
executable Lean definitions: strings stay strings, SQLite tables become lists
of rows, the OpenAI provider and the tool processes become explicit oracles,
and in-memory mutable state is threaded functionally.  Each embedded
definition names the Python function it translates.
-/

set_option maxRecDepth 10000

/-! ## Python string primitives used by the embedded code -/

/-- Whitespace characters stripped by Python str.strip (ASCII subset). -/
def pySpace (c : Char) : Bool :=
  c == ' ' || c == '\t' || c == '\n' || c == '\r' || c == '\x0b' || c == '\x0c'

/-- Model of Python str.startswith on character lists. -/
def leadsChars : List Char → List Char → Bool
  | [], _ => true
  | _ :: _, [] => false
  | p :: ps, c :: cs => p == c && leadsChars ps cs

/-- Model of Python str.startswith. -/
def pyStartsWith (s pre : String) : Bool :=
  leadsChars pre.data s.data

/-- Model of Python "sub in s" (contiguous substring test). -/
def hasSubChars (pat : List Char) : List Char → Bool
  | [] => leadsChars pat []
  | c :: cs => leadsChars pat (c :: cs) || hasSubChars pat cs

/-- One pass of Python str.replace applied to the two-space pattern:
left-to-right non-overlapping replacement of two spaces by one. -/
def replacePairs : List Char → List Char
  | [] => []
  | [c] => [c]
  | c :: d :: rest =>
    if c == ' ' && d == ' ' then ' ' :: replacePairs rest
    else c :: replacePairs (d :: rest)

/-- Whether the list contains two adjacent spaces (the loop guard
of the whitespace-collapsing while-loop in `_clean_for_irc`). -/
def hasPair : List Char → Bool
  | [] => false
  | [_] => false
  | c :: d :: rest => (c == ' ' && d == ' ') || hasPair (d :: rest)

/-- Fuel-bounded iteration of the collapsing pass; fuel equal to the input
length is shown sufficient in `collapseGo_no_pair`. -/
def collapseGo : Nat → List Char → List Char
  | 0, l => l
  | fuel + 1, l => if hasPair l then collapseGo fuel (replacePairs l) else l

/-- The while-loop of `_clean_for_irc` that replaces runs of spaces by a
single space (`while "  " in text: text = text.replace("  ", " ")`). -/
def collapseSpaces (l : List Char) : List Char :=
  collapseGo l.length l

/-- Model of Python str.replace for a single-character pattern. -/
def replaceChar (a b : Char) (l : List Char) : List Char :=
  l.map (fun c => if c == a then b else c)

/-- Model of Python str.strip() (no arguments). -/
def stripChars (l : List Char) : List Char :=
  ((l.dropWhile pySpace).reverse.dropWhile pySpace).reverse

/-- Model of Python str.rstrip(".") — removes every trailing period. -/
def rstripDots (l : List Char) : List Char :=
  (l.reverse.dropWhile (fun c => c == '.')).reverse

/-- Model of Python sep.join(parts). -/
def pyJoin (sep : String) : List String → String
  | [] => ""
  | [s] => s
  | s :: rest => s ++ sep ++ pyJoin sep rest

/-- Fuel-bounded model of Python str.replace for a general pattern
(left-to-right, non-overlapping); fuel equal to the input length suffices
because every step consumes at least one character. -/
def replaceSubGo (pat rep : List Char) : Nat → List Char → List Char
  | 0, s => s
  | fuel + 1, s =>
    if pat ≠ [] && leadsChars pat s then
      rep ++ replaceSubGo pat rep fuel (s.drop pat.length)
    else
      match s with
      | [] => []
      | c :: rest => c :: replaceSubGo pat rep fuel rest

/-- Model of Python str.replace for a general pattern. -/
def pyReplace (s pat rep : String) : String :=
  ⟨replaceSubGo pat.data rep.data s.data.length s.data⟩

/-- The null-response marker (`api/tools/null_response.py`). -/
def NULL_RESPONSE_MARKER : String := "<<NULL_RESPONSE>>"

/-- The status-update marker (`api/tools/report_status.py`). -/
def STATUS_UPDATE_MARKER : String := "<<STATUS_UPDATE>>"

/-! ### Facts about the string primitives -/

theorem replacePairs_length_le (l : List Char) : (replacePairs l).length ≤ l.length := by
  induction l using replacePairs.induct with
  | case1 => simp [replacePairs]
  | case2 c => simp [replacePairs]
  | case3 c d rest hc ih =>
    simp only [replacePairs, hc, if_true, List.length_cons]
    omega
  | case4 c d rest hc ih =>
    simp only [List.length_cons] at ih
    simp [replacePairs, hc]
    omega

theorem replacePairs_length_lt (l : List Char) (h : hasPair l = true) :
    (replacePairs l).length < l.length := by
  induction l using replacePairs.induct with
  | case1 => simp [hasPair] at h
  | case2 c => simp [hasPair] at h
  | case3 c d rest hc ih =>
    have := replacePairs_length_le rest
    simp only [replacePairs, hc, if_true, List.length_cons]
    omega
  | case4 c d rest hc ih =>
    have hrest : hasPair (d :: rest) = true := by
      simp only [hasPair, Bool.or_eq_true] at h
      rcases h with h | h
      · exact absurd h (by simp [hc])
      · exact h
    have := ih hrest
    simp only [List.length_cons] at this
    simp [replacePairs, hc]
    omega

/-- Fuel equal to the length of the list is enough for the collapsing loop:
the loop exits with no two adjacent spaces left, exactly as the Python
while-loop does. -/
theorem collapseGo_no_pair : ∀ fuel l, l.length ≤ fuel → hasPair (collapseGo fuel l) = false := by
  intro fuel
  induction fuel with
  | zero =>
    intro l hl
    have : l = [] := List.eq_nil_of_length_eq_zero (Nat.le_zero.mp hl)
    subst this
    simp [collapseGo, hasPair]
  | succ n ih =>
    intro l hl
    simp only [collapseGo]
    by_cases h : hasPair l = true
    · rw [if_pos h]
      exact ih _ (by have := replacePairs_length_lt l h; omega)
    · rw [if_neg h]
      exact Bool.eq_false_iff.mpr h

theorem collapseSpaces_no_pair (l : List Char) : hasPair (collapseSpaces l) = false :=
  collapseGo_no_pair l.length l (Nat.le_refl _)

theorem dropWhile_head?_not {p : Char → Bool} :
    ∀ (l : List Char) (a : Char), (l.dropWhile p).head? = some a → p a = false := by
  intro l
  induction l with
  | nil => intro a h; simp [List.dropWhile] at h
  | cons c cs ih =>
    intro a h
    by_cases hc : p c = true
    · exact ih a (by simpa [List.dropWhile, hc] using h)
    · have hc' : p c = false := Bool.eq_false_iff.mpr hc
      simp [List.dropWhile, hc'] at h
      subst h
      exact hc'

theorem rstripDots_no_trailing_dot (l : List Char) :
    (rstripDots l).getLast? ≠ some '.' := by
  intro h
  have h1 : (l.reverse.dropWhile (fun c => c == '.')).head? = some '.' := by
    simpa [rstripDots, List.getLast?_reverse] using h
  have := dropWhile_head?_not (p := fun c => c == '.') l.reverse '.' h1
  simp at this

theorem rstripDots_append_replicate (l : List Char) :
    ∃ k, l = rstripDots l ++ List.replicate k '.' := by
  refine ⟨(l.reverse.takeWhile (fun c => c == '.')).length, ?_⟩
  have hsplit := List.takeWhile_append_dropWhile (p := fun c => c == '.') (l := l.reverse)
  have h1 : l = (l.reverse.dropWhile (fun c => c == '.')).reverse ++
      (l.reverse.takeWhile (fun c => c == '.')).reverse := by
    have h2 := congrArg List.reverse hsplit.symm
    rw [List.reverse_reverse, List.reverse_append] at h2
    exact h2
  have htake : l.reverse.takeWhile (fun c => c == '.') =
      List.replicate (l.reverse.takeWhile (fun c => c == '.')).length '.' := by
    apply List.eq_replicate_of_mem
    intro b hb
    simpa using List.mem_takeWhile_imp hb
  conv_lhs => rw [h1]
  rw [rstripDots]
  congr 1
  conv_lhs => rw [htake]
  rw [List.reverse_replicate]

/-! ## Output post-processor (`AIClient._clean_for_irc`)

The three leading regex passes of `_clean_for_irc` (markdown-link stripping,
parenthetical bare-domain removal, removal of a self-authored Sources section)
are not modelled here: no claim refers to them, and on inputs free of links
and Sources sections they are the identity.  `cleanForIrcCore` embeds the
remaining steps exactly: newline flattening, whitespace collapsing, stripping,
trailing-period removal, and the citation appendix. -/

/-- The fallback text `_clean_for_irc` returns for empty input/output. -/
def fallbackResponse : String := "I couldn\x27t generate a response."

/-- Steps 4 of `_clean_for_irc`: replace newlines and carriage returns by
spaces, collapse runs of spaces, strip surrounding whitespace. -/
def ircTrimmed (text : String) : String :=
  ⟨stripChars (collapseSpaces (replaceChar '\r' ' ' (replaceChar '\n' ' ' text.data)))⟩

/-- Embedding of the tail of `AIClient._clean_for_irc` (client.py 1071-1110):
empty-input fallback, newline flattening, space collapsing, strip,
`text.rstrip(".")`, empty-result fallback, and the Sources appendix. -/
def cleanForIrcCore (text : String) (citations : List String) : String :=
  if text == "" then fallbackResponse
  else
    let t : String := ⟨rstripDots (ircTrimmed text).data⟩
    if t == "" then fallbackResponse
    else if citations.isEmpty then t
    else t ++ " | Sources: " ++ pyJoin " , " citations

/-- Modelled from the spec words for claim C7 only: remove at most a single
trailing period from the trimmed text. -/
def trimOneTrailingPeriod (s : String) : String :=
  if s.data.getLast? = some '.' then ⟨s.data.dropLast⟩ else s

/-- Claim C7 counterexample: on the input "Deployed to prod.." the
post-processor returns "Deployed to prod" — it removes BOTH trailing
periods (the source uses `text.rstrip(".")`), while the claim as stated
allows at most one final period to be removed, which would give
"Deployed to prod.". -/
theorem clean_for_irc_counterexample :
    cleanForIrcCore "Deployed to prod.." [] = "Deployed to prod" ∧
    ircTrimmed "Deployed to prod.." = "Deployed to prod.." ∧
    trimOneTrailingPeriod (ircTrimmed "Deployed to prod..") = "Deployed to prod." ∧
    cleanForIrcCore "Deployed to prod.." [] ≠ ircTrimmed "Deployed to prod.." ∧
    cleanForIrcCore "Deployed to prod.." [] ≠
      trimOneTrailingPeriod (ircTrimmed "Deployed to prod..") := by
  refine ⟨by decide, by decide, by decide, by decide, by decide⟩

/-- Claim C7 (amended): after flattening newlines, collapsing whitespace and
trimming, the post-processor removes ALL trailing period characters (not at
most one) before the Sources appendix is attached: the pre-appendix result
never ends in a period, and the trimmed text is recovered by appending some
(possibly more than one) periods to it. -/
theorem clean_for_irc_strips_all_trailing_periods (s : String) (hs : s ≠ "")
    (h : rstripDots (ircTrimmed s).data ≠ []) :
    cleanForIrcCore s [] = ⟨rstripDots (ircTrimmed s).data⟩ ∧
    (cleanForIrcCore s []).data.getLast? ≠ some '.' ∧
    ∃ k, (ircTrimmed s).data = (cleanForIrcCore s []).data ++ List.replicate k '.' := by
  have hse : (s == "") = false := beq_eq_false_iff_ne.mpr hs
  have hne : (⟨rstripDots (ircTrimmed s).data⟩ : String) ≠ "" := by
    intro hEq
    apply h
    have := congrArg String.data hEq
    simpa using this
  have hte : ((⟨rstripDots (ircTrimmed s).data⟩ : String) == "") = false :=
    beq_eq_false_iff_ne.mpr hne
  have hmain : cleanForIrcCore s [] = ⟨rstripDots (ircTrimmed s).data⟩ := by
    simp [cleanForIrcCore, hse, hte]
  refine ⟨hmain, ?_, ?_⟩
  · rw [hmain]
    exact rstripDots_no_trailing_dot (ircTrimmed s).data
  · rw [hmain]
    exact rstripDots_append_replicate (ircTrimmed s).data

/-- Witness for the amended C7 theorem at a concrete input. -/
theorem clean_for_irc_strips_all_trailing_periods_witness :
    "Build green..." ≠ "" ∧ rstripDots (ircTrimmed "Build green...").data ≠ [] ∧
    (cleanForIrcCore "Build green..." [] = ⟨rstripDots (ircTrimmed "Build green...").data⟩ ∧
      (cleanForIrcCore "Build green..." []).data.getLast? ≠ some '.' ∧
      ∃ k, (ircTrimmed "Build green...").data =
        (cleanForIrcCore "Build green..." []).data ++ List.replicate k '.') :=
  ⟨by decide, by decide,
    clean_for_irc_strips_all_trailing_periods "Build green..." (by decide) (by decide)⟩

/-! ## User memories / rules tool (`api/tools/user_rules.py`)

The JSON file `data/user_rules.json` is modelled as an association list from
lowercased nicks to per-user data.  Python str.lower is modelled as a
per-character lowering map. -/

/-- Model of Python str.lower (characterwise lowering). -/
def pyLower (s : String) : String :=
  ⟨s.data.map Char.toLower⟩

/-- One memory entry: `{"id": .., "content": .., "enabled": ..}`. -/
structure RuleEntry where
  entryId : Nat
  content : String
  enabled : Bool
deriving Repr, DecidableEq

/-- Per-user data: `{"entries": [...], "next_id": N}`. -/
structure UserData where
  entries : List RuleEntry
  nextId : Nat
deriving Repr, DecidableEq

/-- The default user data produced by `_get_user_data` for an unknown nick. -/
def emptyUserData : UserData := ⟨[], 1⟩

/-- The whole rules file: nick (lowercased) → user data. -/
structure RulesStore where
  users : List (String × UserData)
deriving Repr, DecidableEq

def lookupUser : List (String × UserData) → String → Option UserData
  | [], _ => none
  | (k, d) :: rest, key => if k == key then some d else lookupUser rest key

def setUser : List (String × UserData) → String → UserData → List (String × UserData)
  | [], key, d => [(key, d)]
  | (k, d0) :: rest, key, d =>
    if k == key then (k, d) :: rest else (k, d0) :: setUser rest key d

/-- Embedding of `UserRulesTool._get_user_data`. -/
def getUserDataR (store : RulesStore) (nick : String) : UserData :=
  (lookupUser store.users (pyLower nick)).getD emptyUserData

/-- Embedding of `UserRulesTool._save_user_data`. -/
def saveUserDataR (store : RulesStore) (nick : String) (d : UserData) : RulesStore :=
  ⟨setUser store.users (pyLower nick) d⟩

/-- Embedding of `UserRulesTool.get_active_rules`: enabled entries rendered
as a dash-bulleted list, or nothing. -/
def getActiveRules (store : RulesStore) (nick : String) : Option String :=
  let entries := (getUserDataR store nick).entries
  let active := entries.filter (fun e => e.enabled)
  if active.isEmpty then none
  else some (pyJoin "\n" (active.map (fun e => "- " ++ e.content)))

/-- Arguments of `UserRulesTool.execute` (optional ones default as in the
Python signature). -/
structure RulesArgs where
  action : String
  requestingUser : String
  targetUser : Option String := none
  content : Option String := none
  entryId : Option Nat := none
  searchTerm : Option String := none
  permissionLevel : String := "normal"
deriving Repr, DecidableEq

/-- Embedding of `UserRulesTool.is_admin`. -/
def isAdminLevel (p : String) : Bool := p == "owner" || p == "admin"

/-- Python truthiness for an optional string (None and "" are falsy). -/
def optTruthy (o : Option String) : Bool := (o.getD "") != ""

/-- Python `target_user or requesting_user` (truthiness-based), lowered. -/
def effTargetOf (a : RulesArgs) : String :=
  pyLower (if optTruthy a.targetUser then a.targetUser.getD "" else a.requestingUser)

/-- The permission guard of `UserRulesTool.execute`: a truthy target that is
not the requester requires admin/owner. -/
def permDeniedR (a : RulesArgs) : Bool :=
  optTruthy a.targetUser &&
    (pyLower (a.targetUser.getD "") != pyLower a.requestingUser) &&
    !isAdminLevel a.permissionLevel

/-- Embedding of `UserRulesTool._find_entry_by_search` (first entry whose
lowered content contains the lowered search term). -/
def findBySearch (entries : List RuleEntry) (term : String) : Option RuleEntry :=
  entries.find? (fun e => hasSubChars (pyLower term).data (pyLower e.content).data)

def searchPred (term : String) (e : RuleEntry) : Bool :=
  hasSubChars (pyLower term).data (pyLower e.content).data

/-- In-place mutation of the first entry satisfying the predicate (the Python
code mutates the dict found by `next(...)` / `_find_entry_by_search`). -/
def updateFirst (p : RuleEntry → Bool) (f : RuleEntry → RuleEntry) :
    List RuleEntry → List RuleEntry
  | [] => []
  | e :: rest => if p e then f e :: rest else e :: updateFirst p f rest

/-- Python `entries.remove(target)`: drop the first element equal to it. -/
def removeFirstEq : List RuleEntry → RuleEntry → List RuleEntry
  | [], _ => []
  | e :: rest, t => if e == t then rest else e :: removeFirstEq rest t

/-- The `list` branch of `UserRulesTool.execute` (never saves). -/
def rulesListAction (a : RulesArgs) (isSelf : Bool) (effectiveTarget : String)
    (ud : UserData) : String × Option UserData :=
  (if ud.entries.isEmpty then
    (if isSelf then "No memories stored for you."
     else "No memories stored for " ++ a.targetUser.getD "" ++ ".")
   else
    pyJoin " | " (("Memories for " ++ effectiveTarget ++ ":") ::
      ud.entries.map (fun e => "  [" ++ toString e.entryId ++ "] " ++
        (if e.enabled then "\u2713" else "\u2717") ++ " " ++ e.content)), none)

/-- The `add` branch of `UserRulesTool.execute`: a new entry gets id
`next_id` and `next_id` is incremented. -/
def rulesAddAction (a : RulesArgs) (ud : UserData) : String × Option UserData :=
  if !optTruthy a.content then ("No content provided. What should I remember?", none)
  else
    let c := a.content.getD ""
    ("Got it! Added memory #" ++ toString ud.nextId ++ ": \"" ++ c ++ "\"",
     some ⟨ud.entries ++ [⟨ud.nextId, c, true⟩], ud.nextId + 1⟩)

/-- The `update` branch of `UserRulesTool.execute`. -/
def rulesUpdateAction (a : RulesArgs) (ud : UserData) : String × Option UserData :=
  if !optTruthy a.content then
    ("No new content provided. What should I update it to?", none)
  else
    let c := a.content.getD ""
    match a.entryId with
    | some eid =>
      match ud.entries.find? (fun e => e.entryId == eid) with
      | none => ("Entry #" ++ toString eid ++ " not found.", none)
      | some t =>
        ("Updated entry #" ++ toString t.entryId ++ ": \"" ++ t.content ++
           "\" \u2192 \"" ++ c ++ "\"",
         some ⟨updateFirst (fun e => e.entryId == eid)
           (fun e => { e with content := c }) ud.entries, ud.nextId⟩)
    | none =>
      if optTruthy a.searchTerm then
        match findBySearch ud.entries (a.searchTerm.getD "") with
        | none => ("No entry found matching \"" ++ a.searchTerm.getD "" ++ "\".", none)
        | some t =>
          ("Updated entry #" ++ toString t.entryId ++ ": \"" ++ t.content ++
             "\" \u2192 \"" ++ c ++ "\"",
           some ⟨updateFirst (searchPred (a.searchTerm.getD ""))
             (fun e => { e with content := c }) ud.entries, ud.nextId⟩)
      else ("Please specify which entry to update (by ID or search term).", none)

/-- The `delete` branch of `UserRulesTool.execute`. -/
def rulesDeleteAction (a : RulesArgs) (ud : UserData) : String × Option UserData :=
  match a.entryId with
  | some eid =>
    match ud.entries.find? (fun e => e.entryId == eid) with
    | none => ("Entry #" ++ toString eid ++ " not found.", none)
    | some t =>
      ("Deleted entry #" ++ toString t.entryId ++ ": \"" ++ t.content ++ "\"",
       some ⟨removeFirstEq ud.entries t, ud.nextId⟩)
  | none =>
    if optTruthy a.searchTerm then
      match findBySearch ud.entries (a.searchTerm.getD "") with
      | none => ("No entry found matching \"" ++ a.searchTerm.getD "" ++ "\".", none)
      | some t =>
        ("Deleted entry #" ++ toString t.entryId ++ ": \"" ++ t.content ++ "\"",
         some ⟨removeFirstEq ud.entries t, ud.nextId⟩)
    else ("Please specify which entry to delete (by ID or search term).", none)

/-- The `clear` branch of `UserRulesTool.execute`: empties the entries and
resets `next_id` back to 1. -/
def rulesClearAction (effectiveTarget : String) (ud : UserData) :
    String × Option UserData :=
  if ud.entries.isEmpty then ("No memories to clear.", none)
  else
    ("Cleared all " ++ toString ud.entries.length ++ " memories for " ++
       effectiveTarget ++ ".", some ⟨[], 1⟩)

/-- The `enable` branch of `UserRulesTool.execute`. -/
def rulesEnableAction (a : RulesArgs) (ud : UserData) : String × Option UserData :=
  match a.entryId with
  | some eid =>
    match ud.entries.find? (fun e => e.entryId == eid) with
    | none => ("Entry #" ++ toString eid ++ " not found.", none)
    | some _ =>
      ("Enabled entry #" ++ toString eid ++ ".",
       some ⟨updateFirst (fun e => e.entryId == eid)
         (fun e => { e with enabled := true }) ud.entries, ud.nextId⟩)
  | none =>
    if optTruthy a.searchTerm then
      match findBySearch ud.entries (a.searchTerm.getD "") with
      | none => ("No entry found matching \"" ++ a.searchTerm.getD "" ++ "\".", none)
      | some t =>
        ("Enabled entry #" ++ toString t.entryId ++ ".",
         some ⟨updateFirst (searchPred (a.searchTerm.getD ""))
           (fun e => { e with enabled := true }) ud.entries, ud.nextId⟩)
    else
      if ud.entries.isEmpty then ("No memories to enable.", none)
      else
        ("Enabled all " ++ toString ud.entries.length ++ " memories.",
         some ⟨ud.entries.map (fun e => { e with enabled := true }), ud.nextId⟩)

/-- The `disable` branch of `UserRulesTool.execute`. -/
def rulesDisableAction (a : RulesArgs) (ud : UserData) : String × Option UserData :=
  match a.entryId with
  | some eid =>
    match ud.entries.find? (fun e => e.entryId == eid) with
    | none => ("Entry #" ++ toString eid ++ " not found.", none)
    | some _ =>
      ("Disabled entry #" ++ toString eid ++ ". It\x27s saved but won\x27t be applied.",
       some ⟨updateFirst (fun e => e.entryId == eid)
         (fun e => { e with enabled := false }) ud.entries, ud.nextId⟩)
  | none =>
    if optTruthy a.searchTerm then
      match findBySearch ud.entries (a.searchTerm.getD "") with
      | none => ("No entry found matching \"" ++ a.searchTerm.getD "" ++ "\".", none)
      | some t =>
        ("Disabled entry #" ++ toString t.entryId ++
           ". It\x27s saved but won\x27t be applied.",
         some ⟨updateFirst (searchPred (a.searchTerm.getD ""))
           (fun e => { e with enabled := false }) ud.entries, ud.nextId⟩)
    else
      if ud.entries.isEmpty then ("No memories to disable.", none)
      else
        ("Disabled all " ++ toString ud.entries.length ++
           " memories. They\x27re saved but won\x27t be applied.",
         some ⟨ud.entries.map (fun e => { e with enabled := false }), ud.nextId⟩)

/-- One action of `UserRulesTool.execute` applied to the target user data:
returns the reply and the data to save (`none` when the branch returns
without calling `_save_user_data`). -/
def rulesActionResult (a : RulesArgs) (isSelf : Bool) (effectiveTarget : String)
    (userData : UserData) : String × Option UserData :=
  if a.action == "list" then rulesListAction a isSelf effectiveTarget userData
  else if a.action == "add" then rulesAddAction a userData
  else if a.action == "update" then rulesUpdateAction a userData
  else if a.action == "delete" then rulesDeleteAction a userData
  else if a.action == "clear" then rulesClearAction effectiveTarget userData
  else if a.action == "enable" then rulesEnableAction a userData
  else if a.action == "disable" then rulesDisableAction a userData
  else ("Unknown action: " ++ a.action, none)

/-- Embedding of `UserRulesTool.execute`: permission guard, then one action
on the target user data, saved back when the branch mutates it. -/
def executeRules (a : RulesArgs) (store : RulesStore) : String × RulesStore :=
  if permDeniedR a then
    ("Permission denied: Only admins/owners can manage other users\x27 memories.", store)
  else
    let effectiveTarget := effTargetOf a
    let isSelf := effectiveTarget == pyLower a.requestingUser
    let userData := getUserDataR store effectiveTarget
    match rulesActionResult a isSelf effectiveTarget userData with
    | (msg, none) => (msg, store)
    | (msg, some d) => (msg, saveUserDataR store effectiveTarget d)

/-! ### Entry-id monotonicity (claim C9) -/

/-- The association-list key under which `execute` reads and writes the
target user (both `_get_user_data` and `_save_user_data` lower their
argument once more). -/
def storeKeyOf (a : RulesArgs) : String := pyLower (effTargetOf a)

def nextIdOf (store : RulesStore) (key : String) : Nat :=
  ((lookupUser store.users key).getD emptyUserData).nextId

/-- The id handed out when this operation is a successful `add` on the given
store (the Python code assigns `next_id` to the new entry). -/
def issuedId (a : RulesArgs) (store : RulesStore) : Nat :=
  nextIdOf store (storeKeyOf a)

/-- An `add` operation that actually creates an entry: action `add`, truthy
content, and not rejected by the permission guard. -/
def isSuccessfulAdd (a : RulesArgs) : Bool :=
  a.action == "add" && optTruthy a.content && !permDeniedR a

def runRulesOps (ops : List RulesArgs) (store : RulesStore) : RulesStore :=
  ops.foldl (fun st op => (executeRules op st).2) store

theorem lookupUser_setUser (l : List (String × UserData)) (k : String) (d : UserData)
    (u : String) :
    lookupUser (setUser l k d) u = if k == u then some d else lookupUser l u := by
  induction l with
  | nil => simp [setUser, lookupUser]
  | cons p rest ih =>
    obtain ⟨k0, d0⟩ := p
    by_cases h : k0 = k
    · subst h
      by_cases hu : k0 = u
      · subst hu
        simp [setUser, lookupUser]
      · simp [setUser, lookupUser, hu]
    · by_cases hu : k0 = u
      · subst hu
        have hk : ¬ k = k0 := fun hk => h hk.symm
        simp [setUser, lookupUser, h, hk]
      · simp [setUser, lookupUser, h, hu, ih]

theorem nextIdOf_saveUserDataR (store : RulesStore) (nick : String) (d : UserData)
    (u : String) :
    nextIdOf (saveUserDataR store nick d) u =
      if pyLower nick == u then d.nextId else nextIdOf store u := by
  simp only [nextIdOf, saveUserDataR, lookupUser_setUser]
  split <;> simp

theorem rulesListAction_none (a : RulesArgs) (isSelf : Bool) (et : String)
    (ud : UserData) : (rulesListAction a isSelf et ud).2 = none := rfl

theorem rulesAddAction_nextId (a : RulesArgs) (ud : UserData) (d' : UserData)
    (hres : (rulesAddAction a ud).2 = some d') : d'.nextId = ud.nextId + 1 := by
  unfold rulesAddAction at hres
  split at hres
  · simp at hres
  · simp at hres
    rw [← hres]

theorem rulesUpdateAction_nextId (a : RulesArgs) (ud : UserData) (d' : UserData)
    (hres : (rulesUpdateAction a ud).2 = some d') : d'.nextId = ud.nextId := by
  unfold rulesUpdateAction at hres
  split at hres
  · simp at hres
  · split at hres
    · split at hres
      · simp at hres
      · simp at hres
        rw [← hres]
    · split at hres
      · split at hres
        · simp at hres
        · simp at hres
          rw [← hres]
      · simp at hres

theorem rulesDeleteAction_nextId (a : RulesArgs) (ud : UserData) (d' : UserData)
    (hres : (rulesDeleteAction a ud).2 = some d') : d'.nextId = ud.nextId := by
  unfold rulesDeleteAction at hres
  split at hres
  · split at hres
    · simp at hres
    · simp at hres
      rw [← hres]
  · split at hres
    · split at hres
      · simp at hres
      · simp at hres
        rw [← hres]
    · simp at hres

theorem rulesEnableAction_nextId (a : RulesArgs) (ud : UserData) (d' : UserData)
    (hres : (rulesEnableAction a ud).2 = some d') : d'.nextId = ud.nextId := by
  unfold rulesEnableAction at hres
  split at hres
  · split at hres
    · simp at hres
    · simp at hres
      rw [← hres]
  · split at hres
    · split at hres
      · simp at hres
      · simp at hres
        rw [← hres]
    · split at hres
      · simp at hres
      · simp at hres
        rw [← hres]

theorem rulesDisableAction_nextId (a : RulesArgs) (ud : UserData) (d' : UserData)
    (hres : (rulesDisableAction a ud).2 = some d') : d'.nextId = ud.nextId := by
  unfold rulesDisableAction at hres
  split at hres
  · split at hres
    · simp at hres
    · simp at hres
      rw [← hres]
  · split at hres
    · split at hres
      · simp at hres
      · simp at hres
        rw [← hres]
    · split at hres
      · simp at hres
      · simp at hres
        rw [← hres]

theorem rulesActionResult_nextId_ge (a : RulesArgs) (isSelf : Bool) (et : String)
    (ud : UserData) (h : a.action ≠ "clear") (d' : UserData)
    (hres : (rulesActionResult a isSelf et ud).2 = some d') :
    ud.nextId ≤ d'.nextId := by
  unfold rulesActionResult at hres
  split_ifs at hres with h1 h2 h3 h4 h5 h6 h7 <;>
    first
      | (rw [rulesListAction_none] at hres; exact absurd hres (by simp))
      | (exact absurd hres (by simp))
      | (have hg := rulesAddAction_nextId a ud d' hres; omega)
      | (have hg := rulesUpdateAction_nextId a ud d' hres; omega)
      | (have hg := rulesDeleteAction_nextId a ud d' hres; omega)
      | (exact absurd (by simpa using h5 : a.action = "clear") h)
      | (have hg := rulesEnableAction_nextId a ud d' hres; omega)
      | (have hg := rulesDisableAction_nextId a ud d' hres; omega)

theorem executeRules_nextId_mono (a : RulesArgs) (store : RulesStore)
    (h : a.action ≠ "clear") (u : String) :
    nextIdOf store u ≤ nextIdOf (executeRules a store).2 u := by
  by_cases hp : permDeniedR a
  · simp [executeRules, hp]
  · rcases hres : rulesActionResult a (effTargetOf a == pyLower a.requestingUser)
      (effTargetOf a) (getUserDataR store (effTargetOf a)) with ⟨msg, od⟩
    cases od with
    | none =>
      have hst : (executeRules a store).2 = store := by
        simp [executeRules, hp, hres]
      rw [hst]
    | some d =>
      have hst : (executeRules a store).2 = saveUserDataR store (effTargetOf a) d := by
        simp [executeRules, hp, hres]
      rw [hst, nextIdOf_saveUserDataR]
      split
      · next heq =>
        have hu : u = pyLower (effTargetOf a) := by
          have := of_decide_eq_true (by exact heq) -- placeholder
          exact this.symm
        have hge := rulesActionResult_nextId_ge a
          (effTargetOf a == pyLower a.requestingUser) (effTargetOf a)
          (getUserDataR store (effTargetOf a)) h d (by rw [hres])
        have hud : (getUserDataR store (effTargetOf a)).nextId = nextIdOf store u := by
          rw [hu]; rfl
        omega
      · exact Nat.le_refl _

theorem runRulesOps_nextId_mono (ops : List RulesArgs) (store : RulesStore)
    (h : ∀ op ∈ ops, op.action ≠ "clear") (u : String) :
    nextIdOf store u ≤ nextIdOf (runRulesOps ops store) u := by
  induction ops generalizing store with
  | nil => simp [runRulesOps]
  | cons op rest ih =>
    have h1 := executeRules_nextId_mono op store (h op (by simp)) u
    have h2 := ih (executeRules op store).2 (fun o ho => h o (by simp [ho]))
    simp only [runRulesOps, List.foldl_cons] at h2 ⊢
    omega

theorem executeRules_add_nextId (a : RulesArgs) (store : RulesStore)
    (h : isSuccessfulAdd a = true) :
    nextIdOf (executeRules a store).2 (storeKeyOf a) = issuedId a store + 1 := by
  have h' := h
  unfold isSuccessfulAdd at h'
  simp only [Bool.and_eq_true, Bool.not_eq_true', beq_iff_eq] at h'
  obtain ⟨⟨ha, hc⟩, hp⟩ := h'
  have hnp : ¬ permDeniedR a = true := by simp [hp]
  have hst : (executeRules a store).2 = saveUserDataR store (effTargetOf a)
      ⟨(getUserDataR store (effTargetOf a)).entries ++
        [⟨(getUserDataR store (effTargetOf a)).nextId, a.content.getD "", true⟩],
       (getUserDataR store (effTargetOf a)).nextId + 1⟩ := by
    simp [executeRules, hnp, rulesActionResult, ha, rulesAddAction, hc]
  rw [issuedId, storeKeyOf, hst, nextIdOf_saveUserDataR]
  simp [getUserDataR, nextIdOf]

/-! ### Claim C9 theorems -/

def c9Store0 : RulesStore := ⟨[]⟩

def c9Add (c : String) : RulesArgs :=
  { action := "add", requestingUser := "alice", content := some c }

def c9Clear : RulesArgs := { action := "clear", requestingUser := "alice" }

def c9DisableAll : RulesArgs := { action := "disable", requestingUser := "alice" }

/-- Claim C9 counterexample: ids are NOT monotone across every sequence of
rules-tool operations.  `clear` resets `next_id` to 1 (user_rules.py 302), so
after add("likes cats") — which issues id 1 — and clear, the next add issues
id 1 again, which is not strictly greater than the previously issued id 1. -/
theorem user_rules_ids_reissued_after_clear :
    isSuccessfulAdd (c9Add "likes cats") = true ∧
    isSuccessfulAdd (c9Add "hates dogs") = true ∧
    issuedId (c9Add "likes cats") c9Store0 = 1 ∧
    (executeRules (c9Add "likes cats") c9Store0).1 = "Got it! Added memory #1: \"likes cats\"" ∧
    issuedId (c9Add "hates dogs")
      (runRulesOps [c9Clear] (executeRules (c9Add "likes cats") c9Store0).2) = 1 ∧
    (getUserDataR (runRulesOps [c9Clear, c9Add "hates dogs"]
      (executeRules (c9Add "likes cats") c9Store0).2) "alice").entries =
      [⟨1, "hates dogs", true⟩] ∧
    ¬ (1 : Nat) > (1 : Nat) := by
  refine ⟨by decide, by decide, by decide, by decide, by decide, by decide, by decide⟩

/-- Claim C9 (amended): entry ids are monotone per user BETWEEN clears.  For
any two successful `add` operations on the same target user separated by any
sequence of non-`clear` operations, the second add receives an id strictly
greater than the first; `clear` resets `next_id` to 1, after which ids are
reissued. -/
theorem user_rules_add_ids_monotone_between_clears
    (op1 op2 : RulesArgs) (ops : List RulesArgs) (store : RulesStore)
    (h1 : isSuccessfulAdd op1 = true) ( _h2 : isSuccessfulAdd op2 = true)
    (hsame : storeKeyOf op2 = storeKeyOf op1)
    (hops : ∀ op ∈ ops, op.action ≠ "clear") :
    issuedId op1 store < issuedId op2 (runRulesOps ops (executeRules op1 store).2) := by
  have ha := executeRules_add_nextId op1 store h1
  have hm := runRulesOps_nextId_mono ops (executeRules op1 store).2 hops (storeKeyOf op1)
  unfold issuedId at ha ⊢
  rw [hsame]
  omega

/-- Witness for the amended C9 theorem: add, disable-all, then add again —
the second add receives id 2 > 1. -/
theorem user_rules_add_ids_monotone_between_clears_witness :
    isSuccessfulAdd (c9Add "likes cats") = true ∧
    isSuccessfulAdd (c9Add "hates dogs") = true ∧
    storeKeyOf (c9Add "hates dogs") = storeKeyOf (c9Add "likes cats") ∧
    (∀ op ∈ [c9DisableAll], op.action ≠ "clear") ∧
    issuedId (c9Add "likes cats") c9Store0 <
      issuedId (c9Add "hates dogs")
        (runRulesOps [c9DisableAll] (executeRules (c9Add "likes cats") c9Store0).2) :=
  ⟨by decide, by decide, by decide, by decide,
    user_rules_add_ids_monotone_between_clears (c9Add "likes cats") (c9Add "hates dogs")
      [c9DisableAll] c9Store0 (by decide) (by decide) (by decide) (by decide)⟩

/-! ## Prompt assembler (`AIClient._build_context_prompt`, client.py 796-909)

The prompt is a newline join of a list of parts built in order: system
prompt, optional deep-research preamble, optional custom-rules block, then
the current-question block (with the timestamp), the history block and a
final instruction.  The parts list is split below into the static prefix
(everything up to the close of the custom-rules block) and the volatile
tail, concatenated in the same order as the source appends them. -/

/-- One message of the provided conversation history. -/
structure HistMsg where
  timestamp : String
  nick : String
  content : String
deriving Repr, DecidableEq

/-- The deep-research preamble injected when `deep_mode` is enabled
(client.py 827-865), a fixed literal. -/
def deepInstructions : String :=
  "=== DEEP RESEARCH MODE ACTIVATED ===\nYou are in DEEP RESEARCH MODE. This means the user wants a thorough, well-researched answer.\n\n**PROGRESS UPDATES (REQUIRED):**\nUse the report_status tool to announce what you\x27re doing at each major step:\n- \"Searching for information on [topic]...\"\n- \"Found relevant sources, analyzing...\"\n- \"Researching [specific aspect]...\"\n- \"Compiling findings into comprehensive answer...\"\nThis keeps the user informed during the longer research process.\n\n**THOROUGH RESEARCH:**\nPerform AT LEAST 2-3 web searches on different aspects of the topic:\n- Search for the main topic/question\n- Search for related concepts, alternatives, or comparisons  \n- Search for recent developments or expert opinions\n- Use fetch_url to read full articles when snippets aren\x27t enough\n\n**USE ALL AVAILABLE TOOLS:**\nYou have access to ALL tools in deep mode - use them as needed:\n- Web search for current information\n- Python execution for calculations, data analysis, code examples\n- Image analysis if images are involved\n- fetch_url to read full web pages\n- Any other tool that helps answer the question thoroughly\n\n**HIGH QUALITY OUTPUT:**\n- Include multiple perspectives where relevant\n- Cite sources and provide links\n- Structure with headers and sections\n- Include examples, explanations, and context\n\n**USE PASTE TOOL FOR FINAL ANSWER:**\nYour response will likely be long. Use the paste tool to create a formatted document \nwith your full answer. Return only the paste URL to IRC with a brief summary.\n\nRemember: Quality over speed. The user specifically requested deep research with --deep flag.\n=== END DEEP RESEARCH MODE ===\n"

/-- The static-prefix parts of the prompt: system prompt, blank, optional
deep preamble, optional custom-rules block (the rules header embeds the
requesting nick, client.py 874). -/
def contextPromptStaticParts (systemPrompt : String) (deepMode : Bool)
    (userRules : Option String) (nick : String) : List String :=
  [systemPrompt, ""]
  ++ (if deepMode then [deepInstructions, ""] else [])
  ++ (if (userRules.getD "") != "" then
       ["=== CUSTOM RULES FOR THIS USER ===",
        "The following custom rules have been set by/for " ++ nick ++
          ". Apply these rules when responding to them:",
        userRules.getD "",
        "=== END CUSTOM RULES ===",
        ""]
      else [])

/-- The volatile tail parts of the prompt: current question (with the
current datetime), conversation history, final instruction. -/
def contextPromptTailParts (userMessage nick channel currentTime : String)
    (history : List HistMsg) : List String :=
  ["=== CURRENT QUESTION ===",
   "Timestamp: " ++ currentTime,
   "Channel: " ++ channel,
   "User: " ++ nick,
   "Message: " ++ userMessage,
   ""]
  ++ (if history.length > 0 then
       (["=== RECENT CONVERSATION CONTEXT ===",
         "(Last " ++ toString history.length ++ " messages from " ++ channel ++
           " for context)",
         ""]
        ++ history.map (fun m => "[" ++ m.timestamp ++ "] " ++ m.nick ++ ": " ++ m.content)
        ++ ["", "=== END OF CONTEXT ==="])
      else [])
  ++ ["",
      "Please respond to the CURRENT QUESTION above. Use the conversation context if relevant, but focus on answering what was just asked."]

/-- Embedding of `AIClient._build_context_prompt`:
`"\n".join(prompt_parts)` over the static parts followed by the tail.
`rulesEnabled` models whether the rules tool is registered
(`AIClient._get_user_rules`). -/
def buildContextPrompt (store : RulesStore) (rulesEnabled : Bool)
    (systemPrompt userMessage nick channel currentTime : String)
    (history : List HistMsg) (deepMode : Bool) : String :=
  let userRules := if rulesEnabled then getActiveRules store nick else none
  pyJoin "\n" (contextPromptStaticParts systemPrompt deepMode userRules nick
    ++ contextPromptTailParts userMessage nick channel currentTime history)

/-- The assembled static prefix (the first bytes of the prompt up through
the close of the last static section). -/
def promptStaticPrefix (store : RulesStore) (rulesEnabled : Bool)
    (systemPrompt nick : String) (deepMode : Bool) : String :=
  pyJoin "\n" (contextPromptStaticParts systemPrompt deepMode
    (if rulesEnabled then getActiveRules store nick else none) nick)

theorem pyJoin_append (sep : String) (xs ys : List String) (hx : xs ≠ []) (hy : ys ≠ []) :
    pyJoin sep (xs ++ ys) = pyJoin sep xs ++ sep ++ pyJoin sep ys := by
  induction xs with
  | nil => exact absurd rfl hx
  | cons x xs ih =>
    cases xs with
    | nil =>
      cases ys with
      | nil => exact absurd rfl hy
      | cons y ys2 => simp [pyJoin]
    | cons x2 xs2 =>
      have h2 := ih (by simp)
      simp only [List.cons_append] at h2 ⊢
      show x ++ sep ++ pyJoin sep (x2 :: (xs2 ++ ys)) =
        (x ++ sep ++ pyJoin sep (x2 :: xs2)) ++ sep ++ pyJoin sep ys
      rw [h2]
      simp [String.append_assoc]

theorem buildContextPrompt_split (store : RulesStore) (rulesEnabled : Bool)
    (sp msg nick ch tm : String) (hist : List HistMsg) (deep : Bool) :
    buildContextPrompt store rulesEnabled sp msg nick ch tm hist deep =
      promptStaticPrefix store rulesEnabled sp nick deep ++ "\n" ++
        pyJoin "\n" (contextPromptTailParts msg nick ch tm hist) := by
  unfold buildContextPrompt promptStaticPrefix
  exact pyJoin_append "\n" _ _ (by simp [contextPromptStaticParts])
    (by simp [contextPromptTailParts])

/-! ### Claim C6 theorems -/

def c6StoreAlice : RulesStore := ⟨[("alice", ⟨[⟨1, "likes cats", true⟩], 2⟩)]⟩

def c6StoreCarol : RulesStore := ⟨[("carol", ⟨[⟨1, "likes cats", true⟩], 2⟩)]⟩

/-- Claim C6 counterexample: two requests with the same system prompt, the
same (non-empty) user memory and the same deep-mode flag, differing only in
the nick (alice vs carol, same byte length, so the static prefixes have the
same length K), assemble prompts that DIFFER within the first K bytes: the
custom-rules header embeds the nick
("The following custom rules have been set by/for {nick}. ..."). -/
theorem prompt_prefix_nick_dependent_counterexample :
    getActiveRules c6StoreAlice "alice" = getActiveRules c6StoreCarol "carol" ∧
    (promptStaticPrefix c6StoreAlice true "You are Lolo." "alice" false).data.length =
      (promptStaticPrefix c6StoreCarol true "You are Lolo." "carol" false).data.length ∧
    (buildContextPrompt c6StoreAlice true "You are Lolo." "hello" "alice" "#lab"
        "2026-02-03 10:00:00" [] false).data.take
        (promptStaticPrefix c6StoreAlice true "You are Lolo." "alice" false).data.length ≠
      (buildContextPrompt c6StoreCarol true "You are Lolo." "hello" "carol" "#lab"
        "2026-02-03 10:00:00" [] false).data.take
        (promptStaticPrefix c6StoreAlice true "You are Lolo." "alice" false).data.length := by
  refine ⟨by decide, by decide, by decide⟩

/-- Claim C6 (amended): for two requests with identical system prompt,
identical resolved user memory, and identical deep-mode flag, the assembled
prompts share the byte-identical static prefix (system prompt, deep-mode
preamble, user-memory block) regardless of channel, message, history or
current time — and regardless of nick PROVIDED the shared user memory is
empty; when it is non-empty the nicks must also coincide, because the
custom-rules header embeds the nick. -/
theorem prompt_prefix_stable
    (st1 st2 : RulesStore) (re1 re2 : Bool) (sp : String) (deep : Bool)
    (m1 m2 n1 n2 ch1 ch2 tm1 tm2 : String) (hs1 hs2 : List HistMsg)
    (hru : (if re1 then getActiveRules st1 n1 else none) =
           (if re2 then getActiveRules st2 n2 else none))
    (hnick : ((if re1 then getActiveRules st1 n1 else none).getD "") ≠ "" → n1 = n2) :
    promptStaticPrefix st1 re1 sp n1 deep = promptStaticPrefix st2 re2 sp n2 deep ∧
    ∃ t1 t2,
      buildContextPrompt st1 re1 sp m1 n1 ch1 tm1 hs1 deep =
        promptStaticPrefix st1 re1 sp n1 deep ++ "\n" ++ t1 ∧
      buildContextPrompt st2 re2 sp m2 n2 ch2 tm2 hs2 deep =
        promptStaticPrefix st1 re1 sp n1 deep ++ "\n" ++ t2 := by
  have hstatic : contextPromptStaticParts sp deep
      (if re1 then getActiveRules st1 n1 else none) n1 =
      contextPromptStaticParts sp deep
      (if re2 then getActiveRules st2 n2 else none) n2 := by
    rw [← hru]
    by_cases hr : ((if re1 then getActiveRules st1 n1 else none).getD "") = ""
    · simp [contextPromptStaticParts, hr]
    · rw [hnick hr]
  have hpre : promptStaticPrefix st1 re1 sp n1 deep =
      promptStaticPrefix st2 re2 sp n2 deep := by
    unfold promptStaticPrefix
    rw [hstatic]
  refine ⟨hpre, pyJoin "\n" (contextPromptTailParts m1 n1 ch1 tm1 hs1),
    pyJoin "\n" (contextPromptTailParts m2 n2 ch2 tm2 hs2),
    buildContextPrompt_split st1 re1 sp m1 n1 ch1 tm1 hs1 deep, ?_⟩
  rw [hpre]
  exact buildContextPrompt_split st2 re2 sp m2 n2 ch2 tm2 hs2 deep

/-- Witness for the amended C6 theorem: two requests with empty user memory
and different nicks share the static prefix byte-for-byte. -/
theorem prompt_prefix_stable_witness :
    ((if true then getActiveRules ⟨[]⟩ "alice" else none) =
      (if true then getActiveRules ⟨[]⟩ "bob" else none)) ∧
    (((if true then getActiveRules (⟨[]⟩ : RulesStore) "alice" else none).getD "") ≠ "" →
      "alice" = "bob") ∧
    (promptStaticPrefix ⟨[]⟩ true "You are Lolo." "alice" true =
        promptStaticPrefix ⟨[]⟩ true "You are Lolo." "bob" true ∧
      ∃ t1 t2,
        buildContextPrompt ⟨[]⟩ true "You are Lolo." "hi" "alice" "#a" "t1" [] true =
          promptStaticPrefix ⟨[]⟩ true "You are Lolo." "alice" true ++ "\n" ++ t1 ∧
        buildContextPrompt ⟨[]⟩ true "You are Lolo." "bye" "bob" "#b" "t2" [] true =
          promptStaticPrefix ⟨[]⟩ true "You are Lolo." "alice" true ++ "\n" ++ t2) :=
  ⟨by decide, by decide,
    prompt_prefix_stable ⟨[]⟩ ⟨[]⟩ true true "You are Lolo." true "hi" "bye" "alice" "bob"
      "#a" "#b" "t1" "t2" [] [] (by decide) (by decide)⟩

/-! ## Reminder tool (`api/tools/reminder.py`)

The SQLite table `reminders` is modelled as a list of rows plus the
AUTOINCREMENT counter.  Timestamps are seconds (Int); the code stores ISO
strings whose lexicographic order coincides with chronological order, so the
SQL comparisons become integer comparisons.  `datetime.fromisoformat` (the
absolute branch of `_parse_deliver_at`) is an oracle parameter. -/

structure Reminder where
  rid : Nat
  creatorNick : String
  targetNick : String
  channel : String
  message : String
  reminderType : String
  deliverAt : Option Int
  recurrence : Option String
  status : String
  createdAt : Int
  deliveredAt : Option Int
  deliveryAttempts : Nat
  expiresAt : Option Int
deriving Repr, DecidableEq

structure RemDB where
  rows : List Reminder
  nextRowId : Nat
deriving Repr, DecidableEq

/-- Python int() on a character list: optional minus sign then digits. -/
def pyParseInt (l : List Char) : Option Int :=
  match l with
  | '-' :: rest =>
    match rest with
    | [] => none
    | _ => if rest.all Char.isDigit then
        some (-(Int.ofNat (rest.foldl (fun n c => n * 10 + (c.toNat - 48)) 0)))
      else none
  | _ =>
    match l with
    | [] => none
    | _ => if l.all Char.isDigit then
        some (Int.ofNat (l.foldl (fun n c => n * 10 + (c.toNat - 48)) 0))
      else none

/-- Embedding of `ReminderTool._parse_deliver_at`: relative offsets
(`+30s`, `+5m`, `+2h`, `+1d`, `+1w`) computed against `now`; absolute
ISO-8601 parsing is delegated to the `isoParse` oracle. -/
def parseDeliverAt (isoParse : String → Option Int) (deliverAt : String)
    (now : Int) : Option Int :=
  let d := stripChars deliverAt.data
  if leadsChars ['+'] d then
    match pyParseInt ((d.drop 1).dropLast) with
    | none => none
    | some v =>
      match (d.getLast?.getD ' ').toLower with
      | 's' => some (now + v)
      | 'm' => some (now + 60 * v)
      | 'h' => some (now + 3600 * v)
      | 'd' => some (now + 86400 * v)
      | 'w' => some (now + 604800 * v)
      | _ => none
  else isoParse ⟨d⟩

/-- Embedding of `ReminderTool._create_reminder` (reminder.py 433-505):
validation, the expiry assignment (30 days for `join`, 365 days for
`recurring`, none otherwise), the 20-pending-per-creator cap, and the
insert. -/
def createReminder (isoParse : String → Option Int)
    (creator target channel message reminderType : String)
    (deliverAt recurrence : Option String) (now : Int) (db : RemDB) :
    String × RemDB :=
  if message == "" || (stripChars message.data).length < 2 then
    ("Error: Reminder message is too short.", db)
  else if channel == "" then
    ("Error: Channel is required for reminders.", db)
  else
    let target := if target != "" then target else creator
    let deliverAtParsed : Option (Option Int) :=
      if reminderType == "time" || reminderType == "recurring" then
        if (deliverAt.getD "") == "" then none
        else match parseDeliverAt isoParse (deliverAt.getD "") now with
          | none => none
          | some t => if t < now then none else some (some t)
      else some none
    match deliverAtParsed with
    | none =>
      (if (deliverAt.getD "") == "" then
        "Error: deliver_at is required for time-based reminders."
       else if (parseDeliverAt isoParse (deliverAt.getD "") now).isNone then
        "Error: Could not parse deliver_at \x27" ++ deliverAt.getD "" ++
          "\x27. Use \x27+30m\x27, \x27+2h\x27, \x27+1d\x27, or ISO 8601 format."
       else "Error: deliver_at is in the past.", db)
    | some deliverAtIso =>
      if reminderType == "recurring" && (recurrence.getD "") == "" then
        ("Error: recurrence is required for recurring reminders (hourly, daily, weekly).", db)
      else
        let expiresAt : Option Int :=
          if reminderType == "join" then some (now + 2592000)
          else if reminderType == "recurring" then some (now + 31536000)
          else none
        let pendingCount := (db.rows.filter (fun r =>
          pyLower r.creatorNick == pyLower creator && r.status == "pending")).length
        if pendingCount ≥ 20 then
          ("Error: You have too many pending reminders (max 20). Cancel some first.", db)
        else
          let rid := db.nextRowId
          let row : Reminder :=
            ⟨rid, creator, target, channel, ⟨stripChars message.data⟩, reminderType,
             deliverAtIso, recurrence, "pending", now, none, 0, expiresAt⟩
          ((if reminderType == "join" then
              "Reminder #" ++ toString rid ++ " set! I\x27ll remind " ++ target ++
                " when they join " ++ channel ++ ": \"" ++ ⟨stripChars message.data⟩ ++ "\""
            else
              "Reminder #" ++ toString rid ++ " set for " ++
                toString (deliverAtIso.getD 0) ++ " UTC! I\x27ll remind " ++ target ++
                " in " ++ channel ++ ": \"" ++ ⟨stripChars message.data⟩ ++ "\""),
           ⟨db.rows ++ [row], rid + 1⟩)

/-- The `create` branch of `ReminderTool.execute` (reminder.py 609-623):
note that a `recurring` request is rewritten to actual type `time` BEFORE
`_create_reminder` runs, so the `reminder_type == "recurring"` expiry branch
inside `_create_reminder` is unreachable. -/
def reminderExecuteCreate (isoParse : String → Option Int)
    (reminderType targetNick message deliverAt recurrence : Option String)
    (channel requestingUser : String) (now : Int) (db : RemDB) : String × RemDB :=
  if (reminderType.getD "") == "" then
    ("Error: reminder_type is required (time, join, or recurring).", db)
  else if (message.getD "") == "" then
    ("Error: message is required.", db)
  else
    let actualType := if reminderType.getD "" == "recurring" then "time"
      else reminderType.getD ""
    createReminder isoParse requestingUser
      (if (targetNick.getD "") != "" then targetNick.getD "" else requestingUser)
      channel (message.getD "") actualType deliverAt
      (if reminderType.getD "" == "recurring" then recurrence else none) now db

/-- The WHERE clause of `check_join_reminders` (reminder.py 284-291):
pending join reminders whose target nick and channel match
case-insensitively.  No expiry condition appears. -/
def matchesJoin (nick channel : String) (r : Reminder) : Bool :=
  r.status == "pending" && r.reminderType == "join" &&
    pyLower r.targetNick == pyLower nick && pyLower r.channel == pyLower channel

/-- Message formatting of `check_join_reminders` (reminder.py 300-303). -/
def formatJoinMsg (nick : String) (r : Reminder) : String :=
  if pyLower r.creatorNick == pyLower r.targetNick then
    nick ++ ": Reminder: " ++ r.message
  else
    nick ++ ": Reminder from " ++ r.creatorNick ++ ": " ++ r.message

def deliverRow (now : Int) (r : Reminder) : Reminder :=
  { r with status := "delivered", deliveredAt := some now }

/-- One `UPDATE reminders SET status = delivered ... WHERE id = ?`. -/
def markDeliveredById (rows : List Reminder) (rid : Nat) (now : Int) : List Reminder :=
  rows.map (fun q => if q.rid == rid then deliverRow now q else q)

def insertByCreated (r : Reminder) : List Reminder → List Reminder
  | [] => [r]
  | q :: rest =>
    if r.createdAt ≤ q.createdAt then r :: q :: rest else q :: insertByCreated r rest

/-- `ORDER BY created_at ASC` (insertion sort; ties in unspecified order, as
in SQLite). -/
def sortByCreatedAt (l : List Reminder) : List Reminder :=
  l.foldr insertByCreated []

/-- Embedding of `ReminderTool.check_join_reminders` (reminder.py 273-319):
select the pending join reminders matching nick and channel
case-insensitively, format their messages, and mark each delivered in one
atomic step (one connection, one commit in the source). -/
def checkJoinReminders (nick channel : String) (now : Int) (db : RemDB) :
    List String × RemDB :=
  let matched := sortByCreatedAt (db.rows.filter (matchesJoin nick channel))
  let msgs := matched.map (formatJoinMsg nick)
  let rows2 := matched.foldl (fun rs r => markDeliveredById rs r.rid now) db.rows
  (msgs, { db with rows := rows2 })

/-- Modelled from the spec: the `/irc/join-check` HTTP endpoint is absent
from the sources (only the `set_reminder_tool` / `get_reminder_tool` global
hooks and their comments reference it); per the spec it posts
`{nick, channel}` and returns `{messages: string[]}` by delegating to
`check_join_reminders` on the registered reminder tool. -/
def ircJoinCheckEndpoint (nick channel : String) (now : Int) (db : RemDB) :
    List String × RemDB :=
  checkJoinReminders nick channel now db

/-! ### Claim C4: join-check delivery -/

theorem mem_insertByCreated (a r : Reminder) (l : List Reminder) :
    a ∈ insertByCreated r l ↔ a = r ∨ a ∈ l := by
  induction l with
  | nil => simp [insertByCreated]
  | cons q rest ih =>
    by_cases h : r.createdAt ≤ q.createdAt
    · simp [insertByCreated, h]
    · simp [insertByCreated, h, ih]
      tauto

theorem mem_sortByCreatedAt (a : Reminder) (l : List Reminder) :
    a ∈ sortByCreatedAt l ↔ a ∈ l := by
  induction l with
  | nil => simp [sortByCreatedAt]
  | cons q rest ih =>
    simp only [sortByCreatedAt, List.foldr_cons] at ih ⊢
    rw [mem_insertByCreated, ih]
    simp

theorem deliverRow_rid (now : Int) (q : Reminder) : (deliverRow now q).rid = q.rid := rfl

theorem deliverRow_idem (now : Int) (q : Reminder) :
    deliverRow now (deliverRow now q) = deliverRow now q := rfl

theorem foldl_markDeliveredById (now : Int) (ms rows : List Reminder) :
    ms.foldl (fun rs r => markDeliveredById rs r.rid now) rows =
      rows.map (fun q => if q.rid ∈ ms.map (fun r => r.rid) then deliverRow now q else q) := by
  induction ms generalizing rows with
  | nil => simp
  | cons m ms ih =>
    simp only [List.foldl_cons]
    rw [ih]
    unfold markDeliveredById
    rw [List.map_map]
    apply List.map_congr_left
    intro q _
    by_cases hq : q.rid = m.rid
    · simp only [Function.comp, hq, beq_self_eq_true, if_true, List.map_cons,
        List.mem_cons, deliverRow_rid]
      by_cases hin : m.rid ∈ ms.map (fun r => r.rid)
      · simp [hin, deliverRow_idem]
      · simp [hin]
    · have hbq : (q.rid == m.rid) = false := by simp [hq]
      simp only [Function.comp, hbq, Bool.false_eq_true, if_false, List.map_cons,
        List.mem_cons]
      by_cases hin : q.rid ∈ ms.map (fun r => r.rid)
      · simp [hin]
      · simp [hin, hq]

/-- Claim C4: a join-check returns the formatted message of every pending
join-type reminder whose target nick and channel match case-insensitively,
marks each of them delivered (in the same atomic step that computes the
messages), leaves non-matching reminders untouched, and leaves no matching
reminder pending.  The `/irc/join-check` endpoint itself is modelled from
the spec (`ircJoinCheckEndpoint`); row ids are assumed distinct (SQLite
primary key). -/
theorem join_check_delivers_matching (nick channel : String) (now : Int) (db : RemDB)
    (hnd : (db.rows.map (fun r => r.rid)).Nodup) (r : Reminder) (hr : r ∈ db.rows) :
    (matchesJoin nick channel r = true →
      formatJoinMsg nick r ∈ (ircJoinCheckEndpoint nick channel now db).1 ∧
      deliverRow now r ∈ (ircJoinCheckEndpoint nick channel now db).2.rows) ∧
    (matchesJoin nick channel r = false →
      r ∈ (ircJoinCheckEndpoint nick channel now db).2.rows) ∧
    (∀ q ∈ (ircJoinCheckEndpoint nick channel now db).2.rows,
      matchesJoin nick channel q = false) := by
  unfold ircJoinCheckEndpoint checkJoinReminders
  simp only [foldl_markDeliveredById]
  refine ⟨?_, ?_, ?_⟩
  · intro hm
    constructor
    · exact List.mem_map_of_mem _ ((mem_sortByCreatedAt r _).mpr
        (List.mem_filter.mpr ⟨hr, hm⟩))
    · have hrid : r.rid ∈ (sortByCreatedAt (db.rows.filter (matchesJoin nick channel))).map
          (fun q => q.rid) :=
        List.mem_map_of_mem _ ((mem_sortByCreatedAt r _).mpr
          (List.mem_filter.mpr ⟨hr, hm⟩))
      have : (fun q => if q.rid ∈ (sortByCreatedAt
          (db.rows.filter (matchesJoin nick channel))).map (fun q => q.rid) then
          deliverRow now q else q) r = deliverRow now r := by
        simp [hrid]
      exact this ▸ List.mem_map_of_mem _ hr
  · intro hm
    have hrid : r.rid ∉ (sortByCreatedAt (db.rows.filter (matchesJoin nick channel))).map
        (fun q => q.rid) := by
      intro hmem
      obtain ⟨m, hmmem, hmeq⟩ := List.mem_map.mp hmem
      have hmrows : m ∈ db.rows.filter (matchesJoin nick channel) :=
        (mem_sortByCreatedAt m _).mp hmmem
      obtain ⟨hmrow, hmmatch⟩ := List.mem_filter.mp hmrows
      have : m = r := List.inj_on_of_nodup_map hnd hmrow hr hmeq
      rw [this] at hmmatch
      rw [hmmatch] at hm
      exact absurd hm (by simp)
    have : (fun q => if q.rid ∈ (sortByCreatedAt
        (db.rows.filter (matchesJoin nick channel))).map (fun q => q.rid) then
        deliverRow now q else q) r = r := by
      simp [hrid]
    exact this ▸ List.mem_map_of_mem _ hr
  · intro q hq
    obtain ⟨p, hp, hpeq⟩ := List.mem_map.mp hq
    by_cases hin : p.rid ∈ (sortByCreatedAt
        (db.rows.filter (matchesJoin nick channel))).map (fun q => q.rid)
    · simp only [hin, if_true] at hpeq
      rw [← hpeq]
      simp [matchesJoin, deliverRow]
    · simp only [hin, if_false] at hpeq
      subst hpeq
      by_cases hm : matchesJoin nick channel p = true
      · exact absurd (List.mem_map_of_mem _ ((mem_sortByCreatedAt p _).mpr
          (List.mem_filter.mpr ⟨hp, hm⟩))) hin
      · exact Bool.eq_false_iff.mpr hm

def c4Reminder : Reminder :=
  ⟨1, "Mat", "BOB", "#Lab", "check logs", "join", none, none, "pending", 100, none, 0,
   some 2692100⟩

def c4DB : RemDB := ⟨[c4Reminder], 2⟩

/-- Witness for the C4 theorem: a pending join reminder for BOB in #Lab is
returned and delivered by a join-check for bob in #lab (case-insensitive). -/
theorem join_check_delivers_matching_witness :
    ((c4DB.rows.map (fun r => r.rid)).Nodup ∧ c4Reminder ∈ c4DB.rows) ∧
    ((matchesJoin "bob" "#lab" c4Reminder = true →
        formatJoinMsg "bob" c4Reminder ∈ (ircJoinCheckEndpoint "bob" "#lab" 200 c4DB).1 ∧
        deliverRow 200 c4Reminder ∈ (ircJoinCheckEndpoint "bob" "#lab" 200 c4DB).2.rows) ∧
      (matchesJoin "bob" "#lab" c4Reminder = false →
        c4Reminder ∈ (ircJoinCheckEndpoint "bob" "#lab" 200 c4DB).2.rows) ∧
      (∀ q ∈ (ircJoinCheckEndpoint "bob" "#lab" 200 c4DB).2.rows,
        matchesJoin "bob" "#lab" q = false)) :=
  ⟨⟨by decide, by decide⟩,
    join_check_delivers_matching "bob" "#lab" 200 c4DB (by decide) c4Reminder (by decide)⟩

/-! ### Claim C8: reminder expiry is never enforced -/

def c8IsoParse : String → Option Int := fun _ => none

def c8DB0 : RemDB := ⟨[], 1⟩

/-- Claim C8 evaluation at the failing input: a join reminder created at
time 0 records `expires_at` thirty days out (2592000 s), yet a join-check
thirty-one days later (2678400 s) still delivers it, because neither
`check_join_reminders` nor `_process_due_reminders` filters on `expires_at`.
Moreover a `recurring` request is rewritten to actual type `time` before
`_create_reminder` runs (reminder.py 614), so the 365-day expiry branch is
dead: the created recurring reminder has `expires_at = None`. -/
theorem reminder_expiry_not_enforced :
    (reminderExecuteCreate c8IsoParse (some "join") (some "bob") (some "tea time")
        none none "#x" "bob" 0 c8DB0).2.rows.map (fun r => r.expiresAt) = [some 2592000] ∧
    (ircJoinCheckEndpoint "bob" "#x" 2678400
        (reminderExecuteCreate c8IsoParse (some "join") (some "bob") (some "tea time")
          none none "#x" "bob" 0 c8DB0).2).1 = ["bob: Reminder: tea time"] ∧
    (reminderExecuteCreate c8IsoParse (some "recurring") (some "bob") (some "water plants")
        (some "+1h") (some "hourly") "#x" "bob" 0 c8DB0).2.rows.map
        (fun r => (r.reminderType, r.expiresAt)) = [("time", none)] := by
  refine ⟨by decide, by decide, by decide⟩

/-! ## Rate limiters (`api/tools/image_rate_limit.py`, `deep_mode_limit.py`)

The module-level timestamp lists guarded by locks are threaded explicitly;
`time.time()` values are Int seconds supplied by the caller. -/

def MAX_IMAGES_PER_HOUR : Nat := 3

def WINDOW_SECONDS : Int := 3600

def IMAGE_TOOLS : List String :=
  ["flux_create_image", "flux_edit_image", "gpt_image", "gemini_image"]

/-- Embedding of `is_image_tool`. -/
def isImageTool (toolName : String) : Bool := IMAGE_TOOLS.contains toolName

/-- Embedding of `check_image_rate_limit`: owner/admin bypass before the
lock (the list is not even cleaned); otherwise old stamps are dropped and
the request is denied at 3 in-window stamps.  Returns
(allowed, message, updated list). -/
def checkImageRateLimit (permissionLevel : String) (ts : List Int) (now : Int) :
    Bool × String × List Int :=
  if permissionLevel == "owner" || permissionLevel == "admin" then (true, "", ts)
  else
    let cleaned := ts.filter (fun t => t > now - WINDOW_SECONDS)
    if cleaned.length ≥ MAX_IMAGES_PER_HOUR then
      (false, "Rate limit reached! Mathisen put a limit on image generation. Try again later.",
       cleaned)
    else (true, "", cleaned)

/-- Embedding of `record_image_generation`: unconditionally appends the
current time, with no permission check. -/
def recordImageGeneration (ts : List Int) (now : Int) : List Int := ts ++ [now]

/-- The number of stamps inside the rolling window. -/
def windowCount (ts : List Int) (now : Int) : Nat :=
  (ts.filter (fun t => t > now - WINDOW_SECONDS)).length

/-- Embedding of `get_remaining_quota` (truncated subtraction is the
`max(0, ...)`). -/
def getRemainingQuota (ts : List Int) (now : Int) : Nat :=
  MAX_IMAGES_PER_HOUR - windowCount ts now

def MAX_DEEP_PER_DAY : Nat := 3

def lookupTs : List (String × List Int) → String → Option (List Int)
  | [], _ => none
  | (k, v) :: rest, key => if k == key then some v else lookupTs rest key

def setTs : List (String × List Int) → String → List Int → List (String × List Int)
  | [], key, v => [(key, v)]
  | (k, v0) :: rest, key, v =>
    if k == key then (k, v) :: rest else (k, v0) :: setTs rest key v

def listMinInt : List Int → Int
  | [] => 0
  | x :: xs => xs.foldl min x

/-- Embedding of `check_deep_mode_limit`: owner/admin bypass; otherwise the
per-nick stamps are pruned to the last 24 h and the request is denied at 3,
with a reset-time message. -/
def checkDeepModeLimit (nick permissionLevel : String)
    (usage : List (String × List Int)) (now : Int) :
    Bool × String × List (String × List Int) :=
  if permissionLevel == "owner" || permissionLevel == "admin" then (true, "", usage)
  else
    let dayAgo := now - 86400
    let cur := ((lookupTs usage nick).getD []).filter (fun t => t > dayAgo)
    let usage2 := setTs usage nick cur
    if cur.length ≥ MAX_DEEP_PER_DAY then
      let oldest := listMinInt cur
      let delta := oldest + 86400 - now
      (false, "Deep mode limit reached (" ++ toString MAX_DEEP_PER_DAY ++
        "/day). Resets in " ++ toString (delta / 3600) ++ "h " ++
        toString (delta % 3600 / 60) ++ "m.", usage2)
    else (true, "", usage2)

/-- Embedding of `record_deep_mode_usage` (admins are not tracked). -/
def recordDeepModeUsage (nick permissionLevel : String)
    (usage : List (String × List Int)) (now : Int) : List (String × List Int) :=
  if permissionLevel == "owner" || permissionLevel == "admin" then usage
  else setTs usage nick (((lookupTs usage nick).getD []) ++ [now])

/-! ## Orchestrator (`AIClient.generate_response_with_context_stream` and
`AIClient._handle_function_calls_stream`, client.py 291-794)

The OpenAI provider and the tool subprocesses are oracles inside `OrchEnv`;
each chained `responses.create` may fail (`none`), modelling the exception
path.  Ghost fields (`execLog`, `recordedStamps`, `turns`) instrument the
embedding so that the specification claims can be stated; they do not feed
back into the control flow. -/

structure TokenUsage where
  inputTokens : Nat
  cachedTokens : Nat
  outputTokens : Nat
deriving Repr, DecidableEq

/-- One element of a message item's `content`; `annUrls` are the urls of
its `url_citation` annotations (already cleaned — `_clean_citation_url`
is not modelled, no claim refers to it). -/
structure ContentItem where
  ctype : String
  text : String
  annUrls : List String
deriving Repr, DecidableEq

/-- One provider output item (`message`, `function_call`,
`web_search_call`, `code_interpreter_call`, ...). -/
structure OutputItem where
  itemType : String
  name : String
  callId : String
  content : List ContentItem
deriving Repr, DecidableEq

/-- A provider response; `output = none` models a missing `output`
attribute. -/
structure ProviderResponse where
  respId : String
  output : Option (List OutputItem)
  usage : TokenUsage
  outputText : String
deriving Repr, DecidableEq

structure UsageTotals where
  inputTokens : Nat
  cachedTokens : Nat
  outputTokens : Nat
  toolCalls : Nat
  webSearchCalls : Nat
  codeInterpreterCalls : Nat
deriving Repr, DecidableEq

structure ToolCounts where
  fnCalls : Nat
  wsCalls : Nat
  ciCalls : Nat
deriving Repr, DecidableEq

/-- Embedding of the `count_tools_in_output` helper (client.py 525-536). -/
def countToolsInOutput (o : Option (List OutputItem)) : ToolCounts :=
  match o with
  | none => ⟨0, 0, 0⟩
  | some items =>
    items.foldl (fun c it =>
      if it.itemType == "function_call" then { c with fnCalls := c.fnCalls + 1 }
      else if it.itemType == "web_search_call" then { c with wsCalls := c.wsCalls + 1 }
      else if it.itemType == "code_interpreter_call" then { c with ciCalls := c.ciCalls + 1 }
      else c) ⟨0, 0, 0⟩

/-- Accumulate one turn's token usage and tool counts into the running
totals (client.py 540-549 and 764-774). -/
def addUsage (t : UsageTotals) (u : TokenUsage) (c : ToolCounts) : UsageTotals :=
  ⟨t.inputTokens + u.inputTokens, t.cachedTokens + u.cachedTokens,
   t.outputTokens + u.outputTokens, t.toolCalls + c.fnCalls,
   t.webSearchCalls + c.wsCalls, t.codeInterpreterCalls + c.ciCalls⟩

/-- Append each url not already present, preserving first-occurrence order
(the `seen_citation_urls` pattern). -/
def dedupAppendUrls (acc : List String) (urls : List String) : List String :=
  urls.foldl (fun acc u => if acc.contains u then acc else acc ++ [u]) acc

/-- Embedding of `AIClient._extract_citations` (annotation traversal with
order-preserving dedup). -/
def extractCitations (r : ProviderResponse) : List String :=
  (r.output.getD []).foldl (fun acc it =>
    if it.itemType == "message" && !it.content.isEmpty then
      it.content.foldl (fun acc ci => dedupAppendUrls acc ci.annUrls) acc
    else acc) []

def firstOutputTextInContent : List ContentItem → Option String
  | [] => none
  | ci :: rest =>
    if ci.ctype == "output_text" && ci.text != "" then some ci.text
    else firstOutputTextInContent rest

def firstMessageText : List OutputItem → Option String
  | [] => none
  | it :: rest =>
    if it.itemType == "message" && !it.content.isEmpty then
      match firstOutputTextInContent it.content with
      | some t => some t
      | none => firstMessageText rest
    else firstMessageText rest

/-- Embedding of `AIClient._extract_output`: `output_text` when non-empty,
else the first non-empty `output_text` content of a message item, else the
fallback text (the legacy `output_items` branch is shape-identical). -/
def extractOutput (r : ProviderResponse) : String :=
  if r.outputText != "" then r.outputText
  else
    match firstMessageText (r.output.getD []) with
    | some t => t
    | none => "No response generated"

/-- Outcome of the nested `analyze_image` handling (client.py 684-728):
`notJson` = `json.loads(result)` raised, `noImage` = parsed but not a
success carrier, `vision desc` = nested vision call returned `desc`,
`visionRaised` = the vision call raised after the status event. -/
inductive AnalyzeOutcome where
  | notJson (msg : String)
  | noImage
  | vision (desc : String)
  | visionRaised (msg : String)
deriving Repr, DecidableEq

/-- Oracle for one tool call: whether the JSON arguments parsed, whether
`tool.execute` raised, and the string it returned otherwise. -/
structure ToolCallSpec where
  argsOk : Bool
  raises : Option String
  result : String
deriving Repr, DecidableEq

/-- Environment of one request: provider responses and tool behaviour,
indexed by loop iteration and call position. -/
structure OrchEnv where
  initial : Option ProviderResponse
  next : Nat → Option ProviderResponse
  callSpec : Nat → Nat → ToolCallSpec
  analyze : Nat → Nat → AnalyzeOutcome
  clock : Nat → Nat → Int
  registered : String → Bool

/-- Ghost record of one executed tool call (the raw string `tool.execute`
returned, before status/vision rewriting). -/
structure CallLogEntry where
  iter : Nat
  idx : Nat
  toolName : String
  rawResult : String
deriving Repr, DecidableEq

/-- State threaded through the per-iteration function-call processing. -/
structure CallState where
  outputs : List String
  statusEvents : List String
  nullTriggered : Bool
  imageTs : List Int
  execLog : List CallLogEntry
  recordedStamps : List Int
deriving Repr, DecidableEq

/-- The part of the per-call body after `tool.execute` returned `raw`
(client.py 660-735): image-quota recording, status-update marker handling,
null-marker detection, the `analyze_image` nesting, and the function
output. -/
def processCallExec (env : OrchEnv) (i j : Nat) (it : OutputItem) (raw : String)
    (st : CallState) : CallState :=
  let st1 := { st with execLog := st.execLog ++ [(⟨i, j, it.name, raw⟩ : CallLogEntry)] }
  let st2 := if isImageTool it.name && !(pyStartsWith raw "Error") then
      { st1 with
        imageTs := recordImageGeneration st1.imageTs (env.clock i j)
        recordedStamps := st1.recordedStamps ++ [env.clock i j] }
    else st1
  let isStatus := it.name == "report_status" && pyStartsWith raw STATUS_UPDATE_MARKER
  let st3 := if isStatus then
      { st2 with statusEvents := st2.statusEvents ++
          [pyReplace raw STATUS_UPDATE_MARKER ""] }
    else st2
  let result1 := if isStatus then "Status reported to user." else raw
  let st4 := if result1 == NULL_RESPONSE_MARKER then
      { st3 with nullTriggered := true }
    else st3
  if it.name == "analyze_image" then
    match env.analyze i j with
    | .notJson m =>
      { st4 with outputs := st4.outputs ++ ["Error analyzing image: " ++ m] }
    | .noImage => { st4 with outputs := st4.outputs ++ [result1] }
    | .vision d =>
      { st4 with
        statusEvents := st4.statusEvents ++ ["Analyzing image content..."]
        outputs := st4.outputs ++ ["Image Analysis Result:\n" ++ d] }
    | .visionRaised m =>
      { st4 with
        statusEvents := st4.statusEvents ++ ["Analyzing image content..."]
        outputs := st4.outputs ++ ["Error analyzing image: " ++ m] }
  else { st4 with outputs := st4.outputs ++ [result1] }

/-- Embedding of the per-call body of `_handle_function_calls_stream`
(client.py 599-743): argument parsing, unknown-tool check, image rate
limit, then execution via `processCallExec`. -/
def processCall (env : OrchEnv) (permissionLevel : String) (i j : Nat)
    (it : OutputItem) (st : CallState) : CallState :=
  let spec := env.callSpec i j
  if !spec.argsOk then
    { st with outputs := st.outputs ++ ["Error: Invalid JSON in tool arguments"] }
  else if !env.registered it.name then
    { st with outputs := st.outputs ++ ["Error: Unknown tool \x27" ++ it.name ++ "\x27"] }
  else
    let rl := if isImageTool it.name then
        checkImageRateLimit permissionLevel st.imageTs (env.clock i j)
      else (true, "", st.imageTs)
    let st := { st with imageTs := rl.2.2 }
    if !rl.1 then
      { st with outputs := st.outputs ++ [rl.2.1] }
    else
      match spec.raises with
      | some m => { st with outputs := st.outputs ++ ["Error executing tool: " ++ m] }
      | none => processCallExec env i j it spec.result st

def processCalls (env : OrchEnv) (permissionLevel : String) (i : Nat) :
    Nat → List OutputItem → CallState → CallState
  | _, [], st => st
  | j, it :: rest, st =>
    processCalls env permissionLevel i (j + 1) rest
      (processCall env permissionLevel i j it st)

/-- State threaded across loop iterations. -/
structure LoopState where
  nullTriggered : Bool
  totals : UsageTotals
  allCitations : List String
  statusEvents : List String
  imageTs : List Int
  execLog : List CallLogEntry
  recordedStamps : List Int
  turns : List ProviderResponse
deriving Repr, DecidableEq

/-- The data of the loop's `final_result` event, plus ghost fields. -/
structure LoopFinal where
  response : ProviderResponse
  nullTriggered : Bool
  totals : UsageTotals
  citations : List String
  iterations : Nat
  imageTs : List Int
  execLog : List CallLogEntry
  recordedStamps : List Int
  turns : List ProviderResponse
deriving Repr, DecidableEq

def defaultLoopFinal : LoopFinal :=
  ⟨⟨"", none, ⟨0, 0, 0⟩, ""⟩, false, ⟨0, 0, 0, 0, 0, 0⟩, [], 0, [], [], [], []⟩

/-- Result of the tool loop: the terminal `final_result` with the status
events yielded on the way, or an exception escaping the loop (a failed
chained provider call). -/
inductive LoopResult where
  | finished (statusEvents : List String) (fin : LoopFinal)
  | raised (statusEvents : List String) (iterations : Nat)
deriving Repr, DecidableEq

def loopResultIterations : LoopResult → Nat
  | .finished _ fin => fin.iterations
  | .raised _ its => its

def mkLoopFinal (resp : ProviderResponse) (iteration : Nat) (st : LoopState) : LoopFinal :=
  ⟨resp, st.nullTriggered, st.totals, st.allCitations, iteration, st.imageTs,
   st.execLog, st.recordedStamps, st.turns⟩

/-- Embedding of the `while iteration < MAX_TOOL_ITERATIONS` loop of
`_handle_function_calls_stream` (client.py 551-794), structurally recursive
on the remaining iteration budget.  Each pass: collect citations, exit with
a final result when there are no output items or no function calls, process
the calls, and chain the next provider call by `previous_response_id`. -/
def loopGo (env : OrchEnv) (permissionLevel : String) :
    Nat → Nat → ProviderResponse → LoopState → LoopResult
  | 0, iteration, resp, st => .finished st.statusEvents (mkLoopFinal resp iteration st)
  | fuel + 1, iteration0, resp, st =>
    let iteration := iteration0 + 1
    let st := { st with
      allCitations := dedupAppendUrls st.allCitations (extractCitations resp) }
    if (match resp.output with | none => true | some l => l.isEmpty) then
      .finished st.statusEvents (mkLoopFinal resp iteration st)
    else
      let functionCalls := (resp.output.getD []).filter
        (fun it => it.itemType == "function_call")
      if functionCalls.isEmpty then
        .finished st.statusEvents (mkLoopFinal resp iteration st)
      else
        let cst := processCalls env permissionLevel iteration 0 functionCalls
          (⟨[], st.statusEvents, st.nullTriggered, st.imageTs, st.execLog,
            st.recordedStamps⟩ : CallState)
        let st := { st with
          statusEvents := cst.statusEvents
          nullTriggered := cst.nullTriggered
          imageTs := cst.imageTs
          execLog := cst.execLog
          recordedStamps := cst.recordedStamps }
        if cst.outputs.isEmpty then
          .finished st.statusEvents (mkLoopFinal resp iteration st)
        else
          match env.next iteration with
          | none => .raised st.statusEvents iteration
          | some resp2 =>
            let st := { st with
              totals := addUsage st.totals resp2.usage (countToolsInOutput resp2.output),
              turns := st.turns ++ [resp2] }
            loopGo env permissionLevel fuel iteration resp2 st

/-- `MAX_TOOL_ITERATIONS = 30 if deep_mode else 18` (client.py 506). -/
def maxToolIterations (deepMode : Bool) : Nat := if deepMode then 30 else 18

/-- Embedding of `_handle_function_calls_stream`: seed the totals with the
initial response's usage and tool counts (client.py 539-549), then run the
loop. -/
def handleFunctionCallsStream (env : OrchEnv) (permissionLevel : String)
    (deepMode : Bool) (resp0 : ProviderResponse) (imageTs0 : List Int) : LoopResult :=
  let st0 : LoopState :=
    ⟨false, addUsage ⟨0, 0, 0, 0, 0, 0⟩ resp0.usage (countToolsInOutput resp0.output),
     [], [], imageTs0, [], [], [resp0]⟩
  loopGo env permissionLevel (maxToolIterations deepMode) 0 resp0 st0

/-- One frame of the newline-delimited event stream. -/
structure Frame where
  status : String
  message : String
deriving Repr, DecidableEq

/-- What one streamed request produces: the frames in order, the persisted
usage record, and (ghost) the loop's final data when the loop finished. -/
structure StreamOutcome where
  frames : List Frame
  usageRecord : Option UsageTotals
  loopFin : Option LoopFinal
deriving Repr, DecidableEq

/-- The tail of `generate_response_with_context_stream` after the loop
finished (client.py 383-443): write the usage record, then emit the `null`
terminal frame, or extract/merge/clean and emit `success` (or the
empty-response `error`). -/
def streamFinishedOutcome (evts : List String) (fin : LoopFinal) : StreamOutcome :=
  let processingFrames : List Frame := evts.map (fun m => ⟨"processing", m⟩)
  let record := some fin.totals
  if fin.nullTriggered then
    ⟨processingFrames ++ [⟨"null", ""⟩], record, some fin⟩
  else
    let outputText := extractOutput fin.response
    let finalCitations := extractCitations fin.response
    let merged := fin.citations ++
      finalCitations.filter (fun u => !fin.citations.contains u)
    let cleaned := cleanForIrcCore outputText merged
    if cleaned == "" || (⟨stripChars cleaned.data⟩ : String) == "" then
      ⟨processingFrames ++
        [⟨"error", "I couldn\x27t generate a proper response. Please try again."⟩],
       record, some fin⟩
    else
      ⟨processingFrames ++ [⟨"success", cleaned⟩], record, some fin⟩

/-- Embedding of `AIClient.generate_response_with_context_stream`
(client.py 291-452): deep-mode quota gate, prompt build, initial provider
call, the tool loop (status events become `processing` frames), then the
finished-case tail.  Recording of deep-mode usage after success mutates
only the deep ledger and is omitted from the outcome. -/
def generateResponseWithContextStream (env : OrchEnv)
    (deepUsage : List (String × List Int)) (imageTs0 : List Int)
    (store : RulesStore) (rulesEnabled : Bool)
    (systemPrompt userMessage nick channel permissionLevel currentTime : String)
    (history : List HistMsg) (deepMode : Bool) (now : Int) : StreamOutcome :=
  let gate := if deepMode then checkDeepModeLimit nick permissionLevel deepUsage now
    else (true, "", deepUsage)
  if !gate.1 then ⟨[⟨"error", gate.2.1⟩], none, none⟩
  else
    let _fullInput := buildContextPrompt store rulesEnabled systemPrompt userMessage
      nick channel currentTime history deepMode
    match env.initial with
    | none => ⟨[⟨"error", "Sorry, I encountered an error generating a response."⟩],
        none, none⟩
    | some resp0 =>
      match handleFunctionCallsStream env permissionLevel deepMode resp0 imageTs0 with
      | .raised evts _ =>
        ⟨evts.map (fun m => ⟨"processing", m⟩) ++
          [⟨"error", "Sorry, I encountered an error generating a response."⟩], none, none⟩
      | .finished evts fin => streamFinishedOutcome evts fin

/-! ### Claim C2: iteration bound of the tool loop -/

theorem loopGo_iterations_le (env : OrchEnv) (perm : String) :
    ∀ (fuel iteration : Nat) (resp : ProviderResponse) (st : LoopState),
    loopResultIterations (loopGo env perm fuel iteration resp st) ≤ iteration + fuel := by
  intro fuel
  induction fuel with
  | zero =>
    intro iteration resp st
    simp [loopGo, loopResultIterations, mkLoopFinal]
  | succ n ih =>
    intro iteration resp st
    simp only [loopGo]
    split
    · simp [loopResultIterations, mkLoopFinal]
    · split
      · simp [loopResultIterations, mkLoopFinal]
      · split
        · simp [loopResultIterations, mkLoopFinal]
        · split
          · simp [loopResultIterations]
          · exact Nat.le_trans (ih (iteration + 1) _ _) (by omega)

/-- Claim C2: for every environment (every possible sequence of provider
responses, including ones that always contain function calls), the tool
loop performs at most `max_iterations` iterations before yielding its
terminal result, with `max_iterations = 30` in deep mode and 18 otherwise. -/
theorem tool_loop_iterations_bounded (env : OrchEnv) (perm : String) (deep : Bool)
    (resp0 : ProviderResponse) (ts0 : List Int) :
    loopResultIterations (handleFunctionCallsStream env perm deep resp0 ts0) ≤
      maxToolIterations deep ∧
    maxToolIterations true = 30 ∧ maxToolIterations false = 18 := by
  refine ⟨?_, rfl, rfl⟩
  unfold handleFunctionCallsStream
  have h := loopGo_iterations_le env perm (maxToolIterations deep) 0 resp0
    ⟨false, addUsage ⟨0, 0, 0, 0, 0, 0⟩ resp0.usage (countToolsInOutput resp0.output),
     [], [], ts0, [], [], [resp0]⟩
  simpa using h

/-! ### Claim C1: null-response suppression -/

/-- Some executed tool call returned the literal null-response marker. -/
def markerLogged (log : List CallLogEntry) : Prop :=
  ∃ e ∈ log, e.rawResult = NULL_RESPONSE_MARKER

instance markerLoggedDecidable (log : List CallLogEntry) : Decidable (markerLogged log) :=
  inferInstanceAs (Decidable (∃ e ∈ log, e.rawResult = NULL_RESPONSE_MARKER))

theorem processCallExec_execLog (env : OrchEnv) (i j : Nat) (it : OutputItem)
    (raw : String) (st : CallState) :
    (processCallExec env i j it raw st).execLog =
      st.execLog ++ [⟨i, j, it.name, raw⟩] := by
  simp only [processCallExec]
  repeat' split
  all_goals simp

theorem processCallExec_null_mono (env : OrchEnv) (i j : Nat) (it : OutputItem)
    (raw : String) (st : CallState) (h : st.nullTriggered = true) :
    (processCallExec env i j it raw st).nullTriggered = true := by
  simp only [processCallExec]
  repeat' split
  all_goals simp [h]

theorem processCallExec_null_of_marker (env : OrchEnv) (i j : Nat) (it : OutputItem)
    (raw : String) (st : CallState) (h : raw = NULL_RESPONSE_MARKER) :
    (processCallExec env i j it raw st).nullTriggered = true := by
  subst h
  have hst : pyStartsWith NULL_RESPONSE_MARKER STATUS_UPDATE_MARKER = false := by decide
  simp only [processCallExec, hst, Bool.and_false, if_neg (by simp : ¬ False),
    Bool.false_eq_true]
  repeat' split
  all_goals simp_all

theorem processCallExec_imageTs (env : OrchEnv) (i j : Nat) (it : OutputItem)
    (raw : String) (st : CallState) :
    (processCallExec env i j it raw st).imageTs = st.imageTs ++
      (if isImageTool it.name && !(pyStartsWith raw "Error") then [env.clock i j]
       else []) := by
  simp only [processCallExec, recordImageGeneration]
  repeat' split
  all_goals simp_all

theorem processCallExec_recordedStamps (env : OrchEnv) (i j : Nat) (it : OutputItem)
    (raw : String) (st : CallState) :
    (processCallExec env i j it raw st).recordedStamps = st.recordedStamps ++
      (if isImageTool it.name && !(pyStartsWith raw "Error") then [env.clock i j]
       else []) := by
  simp only [processCallExec, recordImageGeneration]
  repeat' split
  all_goals simp_all

theorem processCall_null_mono (env : OrchEnv) (perm : String) (i j : Nat)
    (it : OutputItem) (st : CallState) (h : st.nullTriggered = true) :
    (processCall env perm i j it st).nullTriggered = true := by
  simp only [processCall]
  repeat' split
  all_goals first
    | (simp [h]; done)
    | exact processCallExec_null_mono _ _ _ _ _ _ (by simpa using h)

theorem processCall_marker_inv (env : OrchEnv) (perm : String) (i j : Nat)
    (it : OutputItem) (st : CallState)
    (hinv : markerLogged st.execLog → st.nullTriggered = true) :
    markerLogged (processCall env perm i j it st).execLog →
      (processCall env perm i j it st).nullTriggered = true := by
  simp only [processCall]
  repeat' split
  all_goals
    first
    | (intro hm
       simpa using hinv (by simpa [markerLogged] using hm))
    | (intro hm
       rw [processCallExec_execLog] at hm
       rcases hm with ⟨e, he, hraw⟩
       rcases List.mem_append.mp he with h1 | h2
       · exact processCallExec_null_mono _ _ _ _ _ _
           (by simpa using hinv ⟨e, by simpa using h1, hraw⟩)
       · have heq : e = (⟨i, j, it.name, (env.callSpec i j).result⟩ : CallLogEntry) := by
           simpa using h2
         apply processCallExec_null_of_marker
         rw [← hraw, heq])

theorem processCalls_null_mono (env : OrchEnv) (perm : String) (i : Nat) :
    ∀ (rest : List OutputItem) (j : Nat) (st : CallState),
    st.nullTriggered = true →
    (processCalls env perm i j rest st).nullTriggered = true := by
  intro rest
  induction rest with
  | nil => intro j st h; simpa [processCalls] using h
  | cons it rest ih =>
    intro j st h
    simp only [processCalls]
    exact ih _ _ (processCall_null_mono env perm i j it st h)

theorem processCalls_marker_inv (env : OrchEnv) (perm : String) (i : Nat) :
    ∀ (rest : List OutputItem) (j : Nat) (st : CallState),
    (markerLogged st.execLog → st.nullTriggered = true) →
    markerLogged (processCalls env perm i j rest st).execLog →
    (processCalls env perm i j rest st).nullTriggered = true := by
  intro rest
  induction rest with
  | nil => intro j st hinv hm; simp only [processCalls] at hm ⊢; exact hinv hm
  | cons it rest ih =>
    intro j st hinv hm
    simp only [processCalls] at hm ⊢
    exact ih _ _ (processCall_marker_inv env perm i j it st hinv) hm

theorem loopGo_marker_inv (env : OrchEnv) (perm : String) :
    ∀ (fuel iteration : Nat) (resp : ProviderResponse) (st : LoopState)
      (evts : List String) (fin : LoopFinal),
    loopGo env perm fuel iteration resp st = .finished evts fin →
    (markerLogged st.execLog → st.nullTriggered = true) →
    markerLogged fin.execLog → fin.nullTriggered = true := by
  intro fuel
  induction fuel with
  | zero =>
    intro iteration resp st evts fin heq hinv hm
    simp only [loopGo] at heq
    cases heq
    exact hinv (by simpa [mkLoopFinal] using hm)
  | succ n ih =>
    intro iteration resp st evts fin heq hinv hm
    simp only [loopGo] at heq
    split at heq
    · cases heq
      exact hinv (by simpa [mkLoopFinal] using hm)
    · split at heq
      · cases heq
        exact hinv (by simpa [mkLoopFinal] using hm)
      · split at heq
        · cases heq
          simp only [mkLoopFinal] at hm ⊢
          exact processCalls_marker_inv env perm (iteration + 1) _ 0 _ hinv hm
        · split at heq
          · exact absurd heq (by simp)
          · exact ih _ _ _ _ _ heq
              (fun hml => processCalls_marker_inv env perm (iteration + 1) _ 0 _ hinv hml)
              hm

theorem handleFunctionCallsStream_marker_inv (env : OrchEnv) (perm : String)
    (deep : Bool) (resp0 : ProviderResponse) (ts0 : List Int)
    (evts : List String) (fin : LoopFinal)
    (heq : handleFunctionCallsStream env perm deep resp0 ts0 = .finished evts fin)
    (hm : markerLogged fin.execLog) : fin.nullTriggered = true := by
  unfold handleFunctionCallsStream at heq
  exact loopGo_marker_inv env perm _ _ _ _ _ _ heq
    (fun hml => absurd hml (by simp [markerLogged])) hm

theorem streamFinishedOutcome_loopFin (evts : List String) (fin : LoopFinal) :
    (streamFinishedOutcome evts fin).loopFin = some fin := by
  unfold streamFinishedOutcome
  split
  · simp
  · dsimp only
    split <;> simp

theorem streamFinishedOutcome_usageRecord (evts : List String) (fin : LoopFinal) :
    (streamFinishedOutcome evts fin).usageRecord = some fin.totals := by
  unfold streamFinishedOutcome
  split
  · simp
  · dsimp only
    split <;> simp

theorem streamFinishedOutcome_null_frames (evts : List String) (fin : LoopFinal)
    (h : fin.nullTriggered = true) :
    (streamFinishedOutcome evts fin).frames =
      evts.map (fun m => ⟨"processing", m⟩) ++ [⟨"null", ""⟩] := by
  simp [streamFinishedOutcome, h]

theorem generateStream_finished_of_loopFin (env : OrchEnv)
    (deepUsage : List (String × List Int)) (imageTs0 : List Int)
    (store : RulesStore) (rulesEnabled : Bool)
    (sp um nick ch perm tm : String) (hist : List HistMsg) (deep : Bool) (now : Int) :
    (generateResponseWithContextStream env deepUsage imageTs0 store rulesEnabled
      sp um nick ch perm tm hist deep now).loopFin.isSome = true →
    ∃ resp0 evts fin, env.initial = some resp0 ∧
      handleFunctionCallsStream env perm deep resp0 imageTs0 = .finished evts fin ∧
      generateResponseWithContextStream env deepUsage imageTs0 store rulesEnabled
        sp um nick ch perm tm hist deep now = streamFinishedOutcome evts fin := by
  intro hf
  unfold generateResponseWithContextStream at hf ⊢
  by_cases hgate : (!(if deep then checkDeepModeLimit nick perm deepUsage now
      else (true, "", deepUsage)).1) = true
  · simp only [hgate, if_true] at hf
    simp at hf
  · simp only [if_neg hgate] at hf ⊢
    rcases hinit : env.initial with _ | resp0
    · simp [hinit] at hf
    · simp only [hinit] at hf ⊢
      rcases hres : handleFunctionCallsStream env perm deep resp0 imageTs0 with
        ⟨evts, fin⟩ | ⟨evts, its⟩
      · simp only [hres] at hf ⊢
        exact ⟨resp0, evts, fin, rfl, hres, rfl⟩
      · simp [hres] at hf

/-- Claim C1: in any streamed mention request whose tool loop finishes
without an unhandled exception, if some executed tool call returned the
literal null-response marker, then the terminal frame is status `null` with
an empty message and no `success` frame is emitted. -/
theorem null_marker_suppresses_success (env : OrchEnv)
    (deepUsage : List (String × List Int)) (imageTs0 : List Int)
    (store : RulesStore) (rulesEnabled : Bool)
    (sp um nick ch perm tm : String) (hist : List HistMsg) (deep : Bool) (now : Int)
    (hfin : (generateResponseWithContextStream env deepUsage imageTs0 store rulesEnabled
      sp um nick ch perm tm hist deep now).loopFin.isSome = true)
    (hmark : markerLogged ((generateResponseWithContextStream env deepUsage imageTs0
      store rulesEnabled sp um nick ch perm tm hist deep now).loopFin.getD
        defaultLoopFinal).execLog) :
    (generateResponseWithContextStream env deepUsage imageTs0 store rulesEnabled
      sp um nick ch perm tm hist deep now).frames.getLast? = some ⟨"null", ""⟩ ∧
    ∀ f ∈ (generateResponseWithContextStream env deepUsage imageTs0 store rulesEnabled
      sp um nick ch perm tm hist deep now).frames, f.status ≠ "success" := by
  obtain ⟨resp0, evts, fin, hinit, hhandle, hout⟩ :=
    generateStream_finished_of_loopFin env deepUsage imageTs0 store rulesEnabled
      sp um nick ch perm tm hist deep now hfin
  rw [hout] at hmark ⊢
  rw [streamFinishedOutcome_loopFin] at hmark
  simp only [Option.getD_some] at hmark
  have hnull := handleFunctionCallsStream_marker_inv env perm deep resp0 imageTs0
    evts fin hhandle hmark
  rw [streamFinishedOutcome_null_frames evts fin hnull]
  constructor
  · rw [List.getLast?_concat]
  · intro f hf
    rcases List.mem_append.mp hf with h1 | h1
    · obtain ⟨m, _, hm⟩ := List.mem_map.mp h1
      rw [← hm]
      intro hc
      simp at hc
    · simp only [List.mem_singleton] at h1
      rw [h1]
      intro hc
      simp at hc

/-! Concrete test environments for the orchestrator witnesses. -/

def respToolCall : ProviderResponse :=
  ⟨"resp_0", some [⟨"function_call", "null_response", "call_1", []⟩], ⟨100, 0, 10⟩, ""⟩

def respFinalMsg : ProviderResponse :=
  ⟨"resp_1", some [⟨"message", "", "", [⟨"output_text", "Quiet.", []⟩]⟩],
   ⟨50, 20, 5⟩, "Quiet."⟩

/-- Environment in which the only tool call returns the null marker. -/
def envNullTool : OrchEnv :=
  ⟨some respToolCall, fun _ => some respFinalMsg,
   fun _ _ => ⟨true, none, NULL_RESPONSE_MARKER⟩,
   fun _ _ => .noImage, fun _ _ => 1000, fun _ => true⟩

/-- Witness for the C1 theorem on a concrete run. -/
theorem null_marker_suppresses_success_witness :
    (generateResponseWithContextStream envNullTool [] [] ⟨[]⟩ false
      "sys" "hi" "alice" "#c" "normal" "t" [] false 0).loopFin.isSome = true ∧
    markerLogged ((generateResponseWithContextStream envNullTool [] [] ⟨[]⟩ false
      "sys" "hi" "alice" "#c" "normal" "t" [] false 0).loopFin.getD
        defaultLoopFinal).execLog ∧
    ((generateResponseWithContextStream envNullTool [] [] ⟨[]⟩ false
      "sys" "hi" "alice" "#c" "normal" "t" [] false 0).frames.getLast? =
        some ⟨"null", ""⟩ ∧
      ∀ f ∈ (generateResponseWithContextStream envNullTool [] [] ⟨[]⟩ false
        "sys" "hi" "alice" "#c" "normal" "t" [] false 0).frames, f.status ≠ "success") :=
  ⟨by decide, by decide,
    null_marker_suppresses_success envNullTool [] [] ⟨[]⟩ false
      "sys" "hi" "alice" "#c" "normal" "t" [] false 0 (by decide) (by decide)⟩

/-! ### Claim C3: usage accounting over provider turns -/

def sumFnCounts (turns : List ProviderResponse) : Nat :=
  (turns.map (fun r => (countToolsInOutput r.output).fnCalls)).sum

def sumWsCounts (turns : List ProviderResponse) : Nat :=
  (turns.map (fun r => (countToolsInOutput r.output).wsCalls)).sum

def sumCiCounts (turns : List ProviderResponse) : Nat :=
  (turns.map (fun r => (countToolsInOutput r.output).ciCalls)).sum

theorem turns_append_head (l : List ProviderResponse) (x r : ProviderResponse)
    (h : l ≠ []) :
    (l ++ [x]).head? = some ((l ++ [x]).headD r) ∧ (l ++ [x]).head? = l.head? := by
  rcases l with _ | ⟨a, t⟩
  · exact absurd rfl h
  · simp

theorem loopGo_totals_inv (env : OrchEnv) (perm : String) :
    ∀ (fuel iteration : Nat) (resp : ProviderResponse) (st : LoopState)
      (evts : List String) (fin : LoopFinal),
    loopGo env perm fuel iteration resp st = .finished evts fin →
    st.totals.toolCalls = sumFnCounts st.turns →
    st.totals.webSearchCalls = sumWsCounts st.turns →
    st.totals.codeInterpreterCalls = sumCiCounts st.turns →
    st.turns.head? = some (st.turns.headD resp) →
    fin.totals.toolCalls = sumFnCounts fin.turns ∧
    fin.totals.webSearchCalls = sumWsCounts fin.turns ∧
    fin.totals.codeInterpreterCalls = sumCiCounts fin.turns ∧
    fin.turns.head? = st.turns.head? := by
  intro fuel
  induction fuel with
  | zero =>
    intro iteration resp st evts fin heq h1 h2 h3 h4
    simp only [loopGo] at heq
    cases heq
    exact ⟨by simpa [mkLoopFinal] using h1, by simpa [mkLoopFinal] using h2,
      by simpa [mkLoopFinal] using h3, by simp [mkLoopFinal]⟩
  | succ n ih =>
    intro iteration resp st evts fin heq h1 h2 h3 h4
    simp only [loopGo] at heq
    split at heq
    · cases heq
      exact ⟨by simpa [mkLoopFinal] using h1, by simpa [mkLoopFinal] using h2,
        by simpa [mkLoopFinal] using h3, by simp [mkLoopFinal]⟩
    · split at heq
      · cases heq
        exact ⟨by simpa [mkLoopFinal] using h1, by simpa [mkLoopFinal] using h2,
          by simpa [mkLoopFinal] using h3, by simp [mkLoopFinal]⟩
      · split at heq
        · cases heq
          exact ⟨by simpa [mkLoopFinal] using h1, by simpa [mkLoopFinal] using h2,
            by simpa [mkLoopFinal] using h3, by simp [mkLoopFinal]⟩
        · split at heq
          · exact absurd heq (by simp)
          · next resp2 hnext =>
            have hne : st.turns ≠ [] := by
              intro hc
              rw [hc] at h4
              simp at h4
            obtain ⟨c1, c2, c3, c4⟩ := ih _ _ _ _ _ heq
              (by simp [addUsage, sumFnCounts, h1])
              (by simp [addUsage, sumWsCounts, h2])
              (by simp [addUsage, sumCiCounts, h3])
              (by simpa using (turns_append_head st.turns resp2 resp2 hne).1)
            refine ⟨c1, c2, c3, ?_⟩
            rw [c4]
            simpa using (turns_append_head st.turns resp2 resp2 hne).2

theorem handleFunctionCallsStream_totals (env : OrchEnv) (perm : String)
    (deep : Bool) (resp0 : ProviderResponse) (ts0 : List Int)
    (evts : List String) (fin : LoopFinal)
    (heq : handleFunctionCallsStream env perm deep resp0 ts0 = .finished evts fin) :
    fin.totals.toolCalls = sumFnCounts fin.turns ∧
    fin.totals.webSearchCalls = sumWsCounts fin.turns ∧
    fin.totals.codeInterpreterCalls = sumCiCounts fin.turns ∧
    fin.turns.head? = some resp0 := by
  unfold handleFunctionCallsStream at heq
  obtain ⟨c1, c2, c3, c4⟩ := loopGo_totals_inv env perm _ _ _ _ _ _ heq
    (by simp [addUsage, sumFnCounts])
    (by simp [addUsage, sumWsCounts])
    (by simp [addUsage, sumCiCounts])
    (by simp)
  exact ⟨c1, c2, c3, by simpa using c4⟩

/-- Claim C3: for every request that completes (the loop finished), the
persisted usage record equals the loop's summed totals, whose tool-call,
web-search and code-interpreter counters are the total numbers of
`function_call`, `web_search_call` and `code_interpreter_call` items over
ALL provider turns of the request, the first turn included
(`fin.turns.head?` is the initial response). -/
theorem usage_record_counts_provider_items (env : OrchEnv)
    (deepUsage : List (String × List Int)) (imageTs0 : List Int)
    (store : RulesStore) (rulesEnabled : Bool)
    (sp um nick ch perm tm : String) (hist : List HistMsg) (deep : Bool) (now : Int)
    (hfin : (generateResponseWithContextStream env deepUsage imageTs0 store rulesEnabled
      sp um nick ch perm tm hist deep now).loopFin.isSome = true) :
    (generateResponseWithContextStream env deepUsage imageTs0 store rulesEnabled
      sp um nick ch perm tm hist deep now).usageRecord =
      some ((generateResponseWithContextStream env deepUsage imageTs0 store rulesEnabled
        sp um nick ch perm tm hist deep now).loopFin.getD defaultLoopFinal).totals ∧
    ((generateResponseWithContextStream env deepUsage imageTs0 store rulesEnabled
      sp um nick ch perm tm hist deep now).loopFin.getD
        defaultLoopFinal).totals.toolCalls =
      sumFnCounts ((generateResponseWithContextStream env deepUsage imageTs0 store
        rulesEnabled sp um nick ch perm tm hist deep now).loopFin.getD
          defaultLoopFinal).turns ∧
    ((generateResponseWithContextStream env deepUsage imageTs0 store rulesEnabled
      sp um nick ch perm tm hist deep now).loopFin.getD
        defaultLoopFinal).totals.webSearchCalls =
      sumWsCounts ((generateResponseWithContextStream env deepUsage imageTs0 store
        rulesEnabled sp um nick ch perm tm hist deep now).loopFin.getD
          defaultLoopFinal).turns ∧
    ((generateResponseWithContextStream env deepUsage imageTs0 store rulesEnabled
      sp um nick ch perm tm hist deep now).loopFin.getD
        defaultLoopFinal).totals.codeInterpreterCalls =
      sumCiCounts ((generateResponseWithContextStream env deepUsage imageTs0 store
        rulesEnabled sp um nick ch perm tm hist deep now).loopFin.getD
          defaultLoopFinal).turns ∧
    (∃ resp0, env.initial = some resp0 ∧
      ((generateResponseWithContextStream env deepUsage imageTs0 store rulesEnabled
        sp um nick ch perm tm hist deep now).loopFin.getD
          defaultLoopFinal).turns.head? = some resp0) := by
  obtain ⟨resp0, evts, fin, hinit, hhandle, hout⟩ :=
    generateStream_finished_of_loopFin env deepUsage imageTs0 store rulesEnabled
      sp um nick ch perm tm hist deep now hfin
  obtain ⟨c1, c2, c3, c4⟩ :=
    handleFunctionCallsStream_totals env perm deep resp0 imageTs0 evts fin hhandle
  rw [hout, streamFinishedOutcome_loopFin, streamFinishedOutcome_usageRecord]
  simp only [Option.getD_some]
  refine ⟨?_, c1, c2, c3, resp0, hinit, c4⟩
  trivial

/-- Environment whose single tool call returns plain text. -/
def envPlainTool : OrchEnv :=
  ⟨some respToolCall, fun _ => some respFinalMsg,
   fun _ _ => ⟨true, none, "the answer is 42"⟩,
   fun _ _ => .noImage, fun _ _ => 1000, fun _ => true⟩

/-- Witness for the C3 theorem on a concrete run (one function call on the
first turn, none on the second). -/
theorem usage_record_counts_provider_items_witness :
    (generateResponseWithContextStream envPlainTool [] [] ⟨[]⟩ false
      "sys" "hi" "alice" "#c" "normal" "t" [] false 0).loopFin.isSome = true ∧
    ((generateResponseWithContextStream envPlainTool [] [] ⟨[]⟩ false
      "sys" "hi" "alice" "#c" "normal" "t" [] false 0).usageRecord =
        some ((generateResponseWithContextStream envPlainTool [] [] ⟨[]⟩ false
          "sys" "hi" "alice" "#c" "normal" "t" [] false 0).loopFin.getD
            defaultLoopFinal).totals ∧
      ((generateResponseWithContextStream envPlainTool [] [] ⟨[]⟩ false
        "sys" "hi" "alice" "#c" "normal" "t" [] false 0).loopFin.getD
          defaultLoopFinal).totals.toolCalls =
        sumFnCounts ((generateResponseWithContextStream envPlainTool [] [] ⟨[]⟩ false
          "sys" "hi" "alice" "#c" "normal" "t" [] false 0).loopFin.getD
            defaultLoopFinal).turns ∧
      ((generateResponseWithContextStream envPlainTool [] [] ⟨[]⟩ false
        "sys" "hi" "alice" "#c" "normal" "t" [] false 0).loopFin.getD
          defaultLoopFinal).totals.webSearchCalls =
        sumWsCounts ((generateResponseWithContextStream envPlainTool [] [] ⟨[]⟩ false
          "sys" "hi" "alice" "#c" "normal" "t" [] false 0).loopFin.getD
            defaultLoopFinal).turns ∧
      ((generateResponseWithContextStream envPlainTool [] [] ⟨[]⟩ false
        "sys" "hi" "alice" "#c" "normal" "t" [] false 0).loopFin.getD
          defaultLoopFinal).totals.codeInterpreterCalls =
        sumCiCounts ((generateResponseWithContextStream envPlainTool [] [] ⟨[]⟩ false
          "sys" "hi" "alice" "#c" "normal" "t" [] false 0).loopFin.getD
            defaultLoopFinal).turns ∧
      (∃ resp0, envPlainTool.initial = some resp0 ∧
        ((generateResponseWithContextStream envPlainTool [] [] ⟨[]⟩ false
          "sys" "hi" "alice" "#c" "normal" "t" [] false 0).loopFin.getD
            defaultLoopFinal).turns.head? = some resp0)) :=
  ⟨by decide,
    usage_record_counts_provider_items envPlainTool [] [] ⟨[]⟩ false
      "sys" "hi" "alice" "#c" "normal" "t" [] false 0 (by decide)⟩

/-! ### Claim C10: shared image quota -/

theorem checkImageRateLimit_admin (perm : String) (ts : List Int) (now : Int)
    (h : perm = "owner" ∨ perm = "admin") :
    checkImageRateLimit perm ts now = (true, "", ts) := by
  rcases h with h | h <;> simp [checkImageRateLimit, h]

/-- The timestamps `record_image_generation` appends for the image-tool
calls of a log (in order): one per executed image call whose result does
not start with "Error". -/
def recordedOf (env : OrchEnv) (log : List CallLogEntry) : List Int :=
  (log.filter (fun e =>
    isImageTool e.toolName && !(pyStartsWith e.rawResult "Error"))).map
    (fun e => env.clock e.iter e.idx)

theorem recordedOf_append_one (env : OrchEnv) (log : List CallLogEntry)
    (e : CallLogEntry) :
    recordedOf env (log ++ [e]) = recordedOf env log ++
      (if isImageTool e.toolName && !(pyStartsWith e.rawResult "Error") then
        [env.clock e.iter e.idx] else []) := by
  simp only [recordedOf, List.filter_append]
  split
  · next h => simp [List.filter, h]
  · next h => simp [List.filter, h]

theorem processCall_image_inv (env : OrchEnv) (perm : String) (i j : Nat)
    (it : OutputItem) (st : CallState) (ts0 : List Int)
    (hperm : perm = "owner" ∨ perm = "admin")
    (h1 : st.imageTs = ts0 ++ st.recordedStamps)
    (h2 : st.recordedStamps = recordedOf env st.execLog) :
    (processCall env perm i j it st).imageTs =
      ts0 ++ (processCall env perm i j it st).recordedStamps ∧
    (processCall env perm i j it st).recordedStamps =
      recordedOf env (processCall env perm i j it st).execLog := by
  by_cases hargs : (!(env.callSpec i j).argsOk) = true
  · simp only [processCall, hargs, if_true]
    exact ⟨h1, h2⟩
  · by_cases hreg : (!env.registered it.name) = true
    · simp only [processCall, hargs, if_false, hreg, if_true, Bool.false_eq_true]
      exact ⟨h1, h2⟩
    · have hrl : (if isImageTool it.name then
          checkImageRateLimit perm st.imageTs (env.clock i j)
        else (true, "", st.imageTs)) = (true, "", st.imageTs) := by
        split
        · exact checkImageRateLimit_admin perm st.imageTs (env.clock i j) hperm
        · rfl
      simp only [processCall, hargs, hreg, Bool.false_eq_true, if_false, hrl]
      simp only [Bool.not_true, Bool.false_eq_true, if_false]
      rcases hraise : (env.callSpec i j).raises with _ | m
      · simp only [hraise]
        rw [processCallExec_imageTs, processCallExec_recordedStamps,
          processCallExec_execLog]
        constructor
        · dsimp only
          rw [h1, List.append_assoc]
        · dsimp only
          rw [h2, recordedOf_append_one]
      · simp only [hraise]
        exact ⟨h1, h2⟩

theorem processCalls_image_inv (env : OrchEnv) (perm : String) (i : Nat)
    (ts0 : List Int) (hperm : perm = "owner" ∨ perm = "admin") :
    ∀ (rest : List OutputItem) (j : Nat) (st : CallState),
    st.imageTs = ts0 ++ st.recordedStamps →
    st.recordedStamps = recordedOf env st.execLog →
    (processCalls env perm i j rest st).imageTs =
      ts0 ++ (processCalls env perm i j rest st).recordedStamps ∧
    (processCalls env perm i j rest st).recordedStamps =
      recordedOf env (processCalls env perm i j rest st).execLog := by
  intro rest
  induction rest with
  | nil => intro j st h1 h2; exact ⟨h1, h2⟩
  | cons it rest ih =>
    intro j st h1 h2
    simp only [processCalls]
    obtain ⟨g1, g2⟩ := processCall_image_inv env perm i j it st ts0 hperm h1 h2
    exact ih _ _ g1 g2

theorem loopGo_image_inv (env : OrchEnv) (perm : String) (ts0 : List Int)
    (hperm : perm = "owner" ∨ perm = "admin") :
    ∀ (fuel iteration : Nat) (resp : ProviderResponse) (st : LoopState)
      (evts : List String) (fin : LoopFinal),
    loopGo env perm fuel iteration resp st = .finished evts fin →
    st.imageTs = ts0 ++ st.recordedStamps →
    st.recordedStamps = recordedOf env st.execLog →
    fin.imageTs = ts0 ++ fin.recordedStamps ∧
    fin.recordedStamps = recordedOf env fin.execLog := by
  intro fuel
  induction fuel with
  | zero =>
    intro iteration resp st evts fin heq h1 h2
    simp only [loopGo] at heq
    cases heq
    exact ⟨by simpa [mkLoopFinal] using h1, by simpa [mkLoopFinal] using h2⟩
  | succ n ih =>
    intro iteration resp st evts fin heq h1 h2
    simp only [loopGo] at heq
    split at heq
    · cases heq
      exact ⟨by simpa [mkLoopFinal] using h1, by simpa [mkLoopFinal] using h2⟩
    · split at heq
      · cases heq
        exact ⟨by simpa [mkLoopFinal] using h1, by simpa [mkLoopFinal] using h2⟩
      · obtain ⟨g1, g2⟩ := processCalls_image_inv env perm (iteration + 1) ts0 hperm
          _ 0 ⟨[], st.statusEvents, st.nullTriggered, st.imageTs, st.execLog,
            st.recordedStamps⟩ (by simpa using h1) (by simpa using h2)
        split at heq
        · cases heq
          exact ⟨by simpa [mkLoopFinal] using g1, by simpa [mkLoopFinal] using g2⟩
        · split at heq
          · exact absurd heq (by simp)
          · exact ih _ _ _ _ _ heq (by simpa using g1) (by simpa using g2)

theorem handleFunctionCallsStream_image (env : OrchEnv) (perm : String)
    (deep : Bool) (resp0 : ProviderResponse) (ts0 : List Int)
    (evts : List String) (fin : LoopFinal)
    (hperm : perm = "owner" ∨ perm = "admin")
    (heq : handleFunctionCallsStream env perm deep resp0 ts0 = .finished evts fin) :
    fin.imageTs = ts0 ++ fin.recordedStamps ∧
    fin.recordedStamps = recordedOf env fin.execLog := by
  unfold handleFunctionCallsStream at heq
  exact loopGo_image_inv env perm ts0 hperm _ _ _ _ _ _ heq (by simp) (by simp [recordedOf])

/-- Claim C10: owner/admin callers are never denied by the image rate
limiter, yet every successful image-generation call in their runs appends a
timestamp to the single global sliding-window list (`fin.imageTs` is the
initial list plus one stamp per successful image call), and in-window
stamps are exactly what makes `check_image_rate_limit` deny normal users —
so owner/admin generations reduce the quota remaining for normal users. -/
theorem admin_image_generations_consume_shared_quota (env : OrchEnv)
    (deepUsage : List (String × List Int)) (imageTs0 : List Int)
    (store : RulesStore) (rulesEnabled : Bool)
    (sp um nick ch perm tm : String) (hist : List HistMsg) (deep : Bool) (now : Int)
    (hperm : perm = "owner" ∨ perm = "admin")
    (hfin : (generateResponseWithContextStream env deepUsage imageTs0 store rulesEnabled
      sp um nick ch perm tm hist deep now).loopFin.isSome = true) :
    (∀ (ts : List Int) (t2 : Int), checkImageRateLimit perm ts t2 = (true, "", ts)) ∧
    ((generateResponseWithContextStream env deepUsage imageTs0 store rulesEnabled
      sp um nick ch perm tm hist deep now).loopFin.getD defaultLoopFinal).imageTs =
      imageTs0 ++ ((generateResponseWithContextStream env deepUsage imageTs0 store
        rulesEnabled sp um nick ch perm tm hist deep now).loopFin.getD
          defaultLoopFinal).recordedStamps ∧
    ((generateResponseWithContextStream env deepUsage imageTs0 store rulesEnabled
      sp um nick ch perm tm hist deep now).loopFin.getD
        defaultLoopFinal).recordedStamps =
      recordedOf env ((generateResponseWithContextStream env deepUsage imageTs0 store
        rulesEnabled sp um nick ch perm tm hist deep now).loopFin.getD
          defaultLoopFinal).execLog ∧
    (∀ (ts : List Int) (t t2 : Int),
      recordImageGeneration ts t = ts ++ [t] ∧
      (t > t2 - WINDOW_SECONDS →
        windowCount (recordImageGeneration ts t) t2 = windowCount ts t2 + 1) ∧
      ((checkImageRateLimit "normal" ts t2).1 = false ↔
        MAX_IMAGES_PER_HOUR ≤ windowCount ts t2)) := by
  obtain ⟨resp0, evts, fin, hinit, hhandle, hout⟩ :=
    generateStream_finished_of_loopFin env deepUsage imageTs0 store rulesEnabled
      sp um nick ch perm tm hist deep now hfin
  obtain ⟨g1, g2⟩ := handleFunctionCallsStream_image env perm deep resp0 imageTs0
    evts fin hperm hhandle
  rw [hout, streamFinishedOutcome_loopFin]
  simp only [Option.getD_some]
  refine ⟨fun ts t2 => checkImageRateLimit_admin perm ts t2 hperm, g1, g2, ?_⟩
  intro ts t t2
  refine ⟨rfl, ?_, ?_⟩
  · intro h
    simp [windowCount, recordImageGeneration, List.filter_append, h]
  · by_cases h3 : MAX_IMAGES_PER_HOUR ≤ windowCount ts t2
    · simp only [checkImageRateLimit, windowCount] at h3 ⊢
      simp [h3, ge_iff_le]
    · simp only [checkImageRateLimit, windowCount] at h3 ⊢
      simp [h3, ge_iff_le]

def respImageCall : ProviderResponse :=
  ⟨"resp_0", some [⟨"function_call", "gpt_image", "call_1", []⟩], ⟨100, 0, 10⟩, ""⟩

/-- Environment in which the single tool call is a successful image
generation. -/
def envImageTool : OrchEnv :=
  ⟨some respImageCall, fun _ => some respFinalMsg,
   fun _ _ => ⟨true, none, "https://paste.example/img.png"⟩,
   fun _ _ => .noImage, fun _ _ => 1000, fun _ => true⟩

/-- Witness for the C10 theorem: an owner run with one successful image
generation. -/
theorem admin_image_generations_consume_shared_quota_witness :
    ("owner" = "owner" ∨ ("owner" : String) = "admin") ∧
    (generateResponseWithContextStream envImageTool [] [] ⟨[]⟩ false
      "sys" "hi" "alice" "#c" "owner" "t" [] false 0).loopFin.isSome = true ∧
    ((∀ (ts : List Int) (t2 : Int),
        checkImageRateLimit "owner" ts t2 = (true, "", ts)) ∧
      ((generateResponseWithContextStream envImageTool [] [] ⟨[]⟩ false
        "sys" "hi" "alice" "#c" "owner" "t" [] false 0).loopFin.getD
          defaultLoopFinal).imageTs =
        [] ++ ((generateResponseWithContextStream envImageTool [] [] ⟨[]⟩ false
          "sys" "hi" "alice" "#c" "owner" "t" [] false 0).loopFin.getD
            defaultLoopFinal).recordedStamps ∧
      ((generateResponseWithContextStream envImageTool [] [] ⟨[]⟩ false
        "sys" "hi" "alice" "#c" "owner" "t" [] false 0).loopFin.getD
          defaultLoopFinal).recordedStamps =
        recordedOf envImageTool ((generateResponseWithContextStream envImageTool [] []
          ⟨[]⟩ false "sys" "hi" "alice" "#c" "owner" "t" [] false 0).loopFin.getD
            defaultLoopFinal).execLog ∧
      (∀ (ts : List Int) (t t2 : Int),
        recordImageGeneration ts t = ts ++ [t] ∧
        (t > t2 - WINDOW_SECONDS →
          windowCount (recordImageGeneration ts t) t2 = windowCount ts t2 + 1) ∧
        ((checkImageRateLimit "normal" ts t2).1 = false ↔
          MAX_IMAGES_PER_HOUR ≤ windowCount ts t2))) :=
  ⟨Or.inl rfl, by decide,
    admin_image_generations_consume_shared_quota envImageTool [] [] ⟨[]⟩ false
      "sys" "hi" "alice" "#c" "owner" "t" [] false 0 (Or.inl rfl) (by decide)⟩

/-! ## C5: the deep_mode field at the HTTP mention boundary -/

/-- Field names declared on the pydantic MentionRequest model
(src/api/router.py lines 52-62). -/
def mentionRequestFields : List String :=
  ["request_id", "nick", "hostmask", "channel", "message",
   "permission_level", "history"]

/-- Request payload carrying exactly the declared MentionRequest fields. -/
structure MentionRequest where
  request_id : String
  nick : String
  hostmask : Option String
  channel : String
  message : String
  permission_level : String
  history : Option (List HistMsg)
deriving DecidableEq, Repr

/-- Response model for mention handling (src/api/router.py lines 65-72). -/
structure MentionResponse where
  request_id : String
  status : String
  message : String
deriving DecidableEq, Repr

/-- Attribute access on a pydantic model instance: reading an attribute that
is not a declared field raises AttributeError. For boolean attributes no
declared MentionRequest field has type bool, so a successful lookup is
impossible and the in-bounds branch is unreachable. -/
def mentionGetattrBool ( _req : MentionRequest) (attr : String) :
    Except String Bool :=
  if mentionRequestFields.contains attr then .ok false
  else .error (String.append "AttributeError: " attr)

/-- The mention handler (src/api/mention.py lines 36-102). The log_info call
at lines 53-54 evaluates request.deep_mode outside the try block, so the
exception it raises propagates to the caller; only afterwards does the
handler generate a response and map the null marker to a null status. -/
def handleMention (req : MentionRequest) (gen : Bool → String) :
    Except String MentionResponse :=
  match mentionGetattrBool req "deep_mode" with
  | .error e => .error e
  | .ok deep =>
      let msg := gen deep
      if msg == NULL_RESPONSE_MARKER then
        .ok ⟨req.request_id, "null", ""⟩
      else
        .ok ⟨req.request_id, "success", msg⟩

/-- The POST /mention route (src/api/router.py lines 317-348): it runs the
handler and converts any escaped exception into a status-error response. -/
def mentionEndpoint (req : MentionRequest) (gen : Bool → String) :
    MentionResponse :=
  match handleMention req gen with
  | .ok r => r
  | .error e => ⟨req.request_id, "error", String.append "Internal error: " e⟩

/-- The POST /mention/stream route (src/api/router.py lines 384-391): the
call to generate_response_with_context_stream passes message, nick, channel,
history, permission_level and request_id but no deep_mode argument, so the
parameter takes its declared default False. -/
def mentionStreamEndpoint (env : OrchEnv) (deepUsage : List (String × List Int))
    (imageTs0 : List Int) (store : RulesStore) (rulesEnabled : Bool)
    (sp um tm : String) (now : Int) (req : MentionRequest) : StreamOutcome :=
  generateResponseWithContextStream env deepUsage imageTs0 store rulesEnabled
    sp um req.nick req.channel req.permission_level tm
    (req.history.getD []) false now

/-- Claim C5 (refuted as a code bug): the MentionRequest model has no
deep_mode field, so the handler raises AttributeError on every request —
the /mention endpoint answers with status error for every request and every
generator behaviour — and the /mention/stream route always invokes the
orchestrator with deep mode False. -/
theorem mention_deep_mode_field_missing :
    mentionRequestFields.contains "deep_mode" = false ∧
    (∀ (req : MentionRequest) (gen : Bool → String),
      mentionEndpoint req gen =
        ⟨req.request_id, "error", "Internal error: AttributeError: deep_mode"⟩) ∧
    (∀ (env : OrchEnv) (deepUsage : List (String × List Int))
        (imageTs0 : List Int) (store : RulesStore) (rulesEnabled : Bool)
        (sp um tm : String) (now : Int) (req : MentionRequest),
      mentionStreamEndpoint env deepUsage imageTs0 store rulesEnabled
          sp um tm now req =
        generateResponseWithContextStream env deepUsage imageTs0 store
          rulesEnabled sp um req.nick req.channel req.permission_level tm
          (req.history.getD []) false now) := by
  refine ⟨by decide, ?_, fun _ _ _ _ _ _ _ _ _ _ => rfl⟩
  intro req gen
  have hmem : ¬ (mentionRequestFields.contains "deep_mode" = true) := by decide
  simp only [mentionEndpoint, handleMention, mentionGetattrBool, if_neg hmem]
  rfl
